import Mathlib

/-!
Verification development for the ship-telemetry ingestion service.

This file gives a shallow embedding, in Lean 4, of the ingestion pipeline of
the vessel-telemetry Go code base (package ingest, package util, package api),
together with theorems settling the specification claims about it.

Conventions of the embedding:
* Go strings are Lean `String`s (the telemetry data handled here is ASCII).
* Go `float64` values are embedded as `ℚ`; the claims under study only use
  arithmetic and comparisons on which rationals and binary floats agree.
* Go `*T` (nullable) values are `Option T`.
* Functions returning `(T, error)` whose error is always discarded by the
  callers we model return `Option T`.
* The SQLite database is an explicit `DBState` record of tables-as-lists,
  threaded through the functions that the Go code lets write to the database.
-/

namespace ShipTelemetry

/-! ## Character and string helpers (Go strings package, ASCII fragment) -/

/-- Lower-case one character, as Go strings.ToLower does on ASCII input. -/
def charLower (c : Char) : Char :=
  if 65 ≤ c.toNat ∧ c.toNat ≤ 90 then Char.ofNat (c.toNat + 32) else c

/-- Go strings.ToLower, restricted to ASCII. -/
def toLowerStr (s : String) : String :=
  ⟨s.data.map charLower⟩

/-- The white-space characters relevant to Go strings.TrimSpace on ASCII. -/
def isSpaceChar (c : Char) : Bool :=
  c = ' ' || c = '\t' || c = '\n' || c = '\r'

/-- Go strings.TrimSpace, restricted to ASCII. -/
def trimSpace (s : String) : String :=
  ⟨((s.data.dropWhile isSpaceChar).reverse.dropWhile isSpaceChar).reverse⟩

/-- Is `pat` a contiguous substring starting at the head of `l`? -/
def isPrefixList (pat l : List Char) : Bool :=
  match pat, l with
  | [], _ => true
  | _ :: _, [] => false
  | a :: as, b :: bs => a = b && isPrefixList as bs

/-- Is `pat` a contiguous substring of `l` anywhere? -/
def isInfixList (pat l : List Char) : Bool :=
  match l with
  | [] => pat.isEmpty
  | _ :: rest => isPrefixList pat l || isInfixList pat rest

/-- Go strings.Contains: is `pat` a contiguous substring of `s`? -/
def containsStr (s pat : String) : Bool :=
  isInfixList pat.data s.data

/-- Replace every occurrence of character `a` by `b` (Go strings.ReplaceAll
with one-character arguments). -/
def replaceChar (s : String) (a b : Char) : String :=
  ⟨s.data.map (fun c => if c = a then b else c)⟩

/-- Join a list of strings with separator `sep` (Go strings.Join). -/
def joinSep (sep : String) : List String → String
  | [] => ""
  | [x] => x
  | x :: xs => x ++ sep ++ joinSep sep xs

/-! ## SHA-256 (crypto/sha256, as used by util.SHA256Hex)

A direct implementation of FIPS 180-4 SHA-256 over byte lists, with 32-bit
words represented as natural numbers reduced modulo 2^32. -/

/-- Rotate a 32-bit word right by `n` bits. -/
def rotr32 (n x : Nat) : Nat :=
  ((x >>> n) ||| (x <<< (32 - n))) % 4294967296

/-- The SHA-256 round constants. -/
def sha256K : List Nat :=
  [1116352408, 1899447441, 3049323471, 3921009573, 961987163,
   1508970993, 2453635748, 2870763221, 3624381080, 310598401,
   607225278, 1426881987, 1925078388, 2162078206, 2614888103,
   3248222580, 3835390401, 4022224774, 264347078, 604807628,
   770255983, 1249150122, 1555081692, 1996064986, 2554220882,
   2821834349, 2952996808, 3210313671, 3336571891, 3584528711,
   113926993, 338241895, 666307205, 773529912, 1294757372,
   1396182291, 1695183700, 1986661051, 2177026350, 2456956037,
   2730485921, 2820302411, 3259730800, 3345764771, 3516065817,
   3600352804, 4094571909, 275423344, 430227734, 506948616,
   659060556, 883997877, 958139571, 1322822218, 1537002063,
   1747873779, 1955562222, 2024104815, 2227730452, 2361852424,
   2428436474, 2756734187, 3204031479, 3329325298]

/-- The SHA-256 initial hash value. -/
def sha256H0 : List Nat :=
  [1779033703, 3144134277, 1013904242, 2773480762,
   1359893119, 2600822924, 528734635, 1541459225]

/-- Big-endian bytes of a value, `k` bytes wide. -/
def beBytes : Nat → Nat → List Nat
  | 0, _ => []
  | k + 1, v => v / 2 ^ (8 * k) % 256 :: beBytes k v

/-- SHA-256 message padding: append 0x80, zeros, and the 64-bit big-endian
bit length, reaching a multiple of 64 bytes. -/
def sha256Pad (msg : List Nat) : List Nat :=
  let padLen := (120 - (msg.length + 1) % 64) % 64
  msg ++ 0x80 :: List.replicate padLen 0 ++ beBytes 8 (msg.length * 8)

/-- Group bytes into 64-byte blocks. -/
def chunks64 (l : List Nat) : List (List Nat) :=
  if h : l = [] then []
  else
    l.take 64 :: chunks64 (l.drop 64)
termination_by l.length
decreasing_by
  simp only [List.length_drop]
  have : l.length ≠ 0 := fun hl => h (List.length_eq_zero.mp hl)
  omega

/-- Combine big-endian bytes into 32-bit words. -/
def bytesToWords : List Nat → List Nat
  | b0 :: b1 :: b2 :: b3 :: rest =>
      (b0 * 16777216 + b1 * 65536 + b2 * 256 + b3) :: bytesToWords rest
  | _ => []

/-- Extend the 16-word message schedule by `k` further words. -/
def schedExtend : Nat → List Nat → List Nat
  | 0, w => w
  | k + 1, w =>
    let n := w.length
    let x15 := w.getD (n - 15) 0
    let x2 := w.getD (n - 2) 0
    let s0 := rotr32 7 x15 ^^^ rotr32 18 x15 ^^^ (x15 >>> 3)
    let s1 := rotr32 17 x2 ^^^ rotr32 19 x2 ^^^ (x2 >>> 10)
    schedExtend k (w ++ [(w.getD (n - 16) 0 + s0 + w.getD (n - 7) 0 + s1) % 4294967296])

/-- One SHA-256 compression round; the state is the list [a,b,c,d,e,f,g,h]. -/
def sha256Round (st : List Nat) (wk : Nat × Nat) : List Nat :=
  match st with
  | [a, b, c, d, e, f, g, h] =>
    let S1 := rotr32 6 e ^^^ rotr32 11 e ^^^ rotr32 25 e
    let ch := (e &&& f) ^^^ ((4294967295 ^^^ e) &&& g)
    let temp1 := (h + S1 + ch + wk.2 + wk.1) % 4294967296
    let S0 := rotr32 2 a ^^^ rotr32 13 a ^^^ rotr32 22 a
    let maj := (a &&& b) ^^^ (a &&& c) ^^^ (b &&& c)
    let temp2 := (S0 + maj) % 4294967296
    [(temp1 + temp2) % 4294967296, a, b, c, (d + temp1) % 4294967296, e, f, g]
  | _ => st

/-- Compress one 64-byte block into the running hash state. -/
def sha256Block (h : List Nat) (block : List Nat) : List Nat :=
  let w := schedExtend 48 (bytesToWords block)
  let st := (w.zip sha256K).foldl sha256Round h
  (h.zip st).map (fun p => (p.1 + p.2) % 4294967296)

/-- SHA-256 digest of a byte list, as 32 bytes. -/
def sha256Bytes (msg : List Nat) : List Nat :=
  ((chunks64 (sha256Pad msg)).foldl sha256Block sha256H0).foldr
    (fun w acc => beBytes 4 w ++ acc) []

/-- One lower-case hexadecimal digit. -/
def hexDigit (n : Nat) : Char :=
  if n < 10 then Char.ofNat (48 + n) else Char.ofNat (87 + n)

/-- util.SHA256Hex: hex-encoded SHA-256 digest of the given bytes. -/
def SHA256Hex (data : List Nat) : String :=
  ⟨(sha256Bytes data).foldr (fun b acc => hexDigit (b / 16) :: hexDigit (b % 16) :: acc) []⟩

/-- Byte view of an ASCII string (the Go code hashes the UTF-8 bytes of its
strings; all strings built by this pipeline are ASCII, where the UTF-8 bytes
are exactly the code points). -/
def stringToBytes (s : String) : List Nat :=
  s.data.map Char.toNat

/-! ## Timestamps

Go time.Time values, restricted to whole seconds and a fixed-minute zone
offset, which is all the ingestion pipeline stores or formats. -/

/-- A calendar timestamp with a zone offset in minutes east of UTC. -/
structure Timestamp where
  year : Nat
  month : Nat
  day : Nat
  hour : Nat
  minute : Nat
  second : Nat
  offsetMin : Int
deriving DecidableEq

/-- The decimal digit character for `n < 10`. -/
def digitChar (n : Nat) : Char := Char.ofNat (48 + n)

/-- Two-digit zero-padded decimal (for field values ≤ 99). -/
def pad2 (n : Nat) : List Char := [digitChar (n / 10), digitChar (n % 10)]

/-- Four-digit zero-padded decimal (for field values ≤ 9999). -/
def pad4 (n : Nat) : List Char :=
  [digitChar (n / 1000), digitChar (n / 100 % 10), digitChar (n / 10 % 10), digitChar (n % 10)]

/-- RFC 3339 numeric zone: Z for UTC, otherwise a signed hh:mm offset. -/
def formatZone (off : Int) : List Char :=
  if off = 0 then ['Z']
  else if 0 < off then '+' :: (pad2 (off.natAbs / 60) ++ ':' :: pad2 (off.natAbs % 60))
  else '-' :: (pad2 (off.natAbs / 60) ++ ':' :: pad2 (off.natAbs % 60))

/-- Go ts.Format(time.RFC3339). -/
def formatRFC3339 (t : Timestamp) : String :=
  ⟨pad4 t.year ++ ('-' :: (pad2 t.month ++ ('-' :: (pad2 t.day ++
   ('T' :: (pad2 t.hour ++ (':' :: (pad2 t.minute ++ (':' :: (pad2 t.second ++
   formatZone t.offsetMin))))))))))⟩

/-- Decimal digits of a natural number, most significant first. -/
def natDigits (n : Nat) : List Char :=
  if n < 10 then [digitChar n]
  else natDigits (n / 10) ++ [digitChar (n % 10)]
decreasing_by
  have : 10 ≤ n := le_of_not_lt (by assumption)
  exact Nat.div_lt_self (by omega) (by omega)

/-- Go fmt %d formatting of an integer. -/
def intToString (i : Int) : String :=
  if i < 0 then ⟨'-' :: natDigits i.natAbs⟩ else ⟨natDigits i.natAbs⟩

/-! ## Row hashing (util.HashRow)

Go's sort.Strings sorts ascending by byte order; on ASCII strings this agrees
with the lexicographic order of Lean strings, and since a sorted permutation
is unique, any correct sorting algorithm models it.  We use insertion sort. -/

/-- util.HashRow: hash of stream, vessel id, RFC3339 timestamp and the sorted
key list, joined with "|". -/
def HashRow (vesselID : Int) (ts : Timestamp) (stream : String) (keys : List String) : String :=
  let sorted := List.insertionSort (· ≤ ·) keys
  let parts := [stream, intToString vesselID, formatRFC3339 ts] ++ sorted
  SHA256Hex (stringToBytes (joinSep "|" parts))

/-! ## Value parsing (internal/ingest, mapping.go)

ParseFloat and ParseInt wrap Go's strconv; they are modelled on the decimal
fragment of Go's numeric syntax (sign, digits, optional fraction, optional
exponent), which covers every value this pipeline handles; the few inputs Go
would additionally accept (hex floats, inf/nan) have no ℚ meaning and the
callers treat every parse failure identically, as an absent field. -/

/-- Numeric value of a decimal digit character. -/
def digitVal (c : Char) : Nat := c.toNat - 48

/-- Value of a list of decimal digit characters, most significant first. -/
def parseDigitsNat (cs : List Char) : Nat :=
  cs.foldl (fun a c => a * 10 + digitVal c) 0

/-- Decimal float syntax after trimming: sign, digits, optional fraction,
optional exponent; at least one digit in the mantissa. -/
def parseFloatCore (cs : List Char) : Option ℚ :=
  let signNeg := cs.head? = some '-'
  let cs1 := if cs.head? = some '-' ∨ cs.head? = some '+' then cs.tail else cs
  let ip := cs1.takeWhile Char.isDigit
  let rest1 := cs1.dropWhile Char.isDigit
  let hasDot := rest1.head? = some '.'
  let rest2 := if hasDot then rest1.tail else rest1
  let fp := if hasDot then rest2.takeWhile Char.isDigit else []
  let rest3 := if hasDot then rest2.dropWhile Char.isDigit else rest1
  if ip.length + fp.length = 0 then none
  else
    let mant : ℚ :=
      (if signNeg then -1 else 1) * (parseDigitsNat (ip ++ fp) : ℚ) / 10 ^ fp.length
    match rest3 with
    | [] => some mant
    | e :: rest4 =>
      if e = 'e' ∨ e = 'E' then
        let eNeg := rest4.head? = some '-'
        let rest5 := if rest4.head? = some '-' ∨ rest4.head? = some '+' then rest4.tail else rest4
        let ed := rest5.takeWhile Char.isDigit
        if ed ≠ [] ∧ rest5.dropWhile Char.isDigit = [] then
          some (if eNeg then mant / 10 ^ parseDigitsNat ed else mant * 10 ^ parseDigitsNat ed)
        else none
      else none

/-- ingest.ParseFloat: empty string parses to an absent value; otherwise the
trimmed string must be a float literal.  The callers discard the error, so an
unparsable string also yields an absent value here. -/
def ParseFloat (s : String) : Option ℚ :=
  if s = "" then none else parseFloatCore (trimSpace s).data

/-- strconv.ParseInt base 10 with 64-bit range (also strconv.Atoi). -/
def parseIntStr (s : String) : Option Int :=
  let cs := s.data
  let neg := cs.head? = some '-'
  let cs1 := if cs.head? = some '-' ∨ cs.head? = some '+' then cs.tail else cs
  if cs1 ≠ [] ∧ cs1.all Char.isDigit then
    let v : Int := if neg then -(parseDigitsNat cs1 : Int) else (parseDigitsNat cs1 : Int)
    if -(2 ^ 63) ≤ v ∧ v ≤ 2 ^ 63 - 1 then some v else none
  else none

/-- ingest.ParseInt: empty string parses to an absent value; otherwise
strconv.Atoi on the trimmed string, errors collapsing to an absent value. -/
def ParseIntOpt (s : String) : Option Int :=
  if s = "" then none else parseIntStr (trimSpace s)

/-- The first maximal run of decimal digits in `s` (regexp \d+ FindString). -/
def digitRunAux : List Char → List Char
  | [] => []
  | c :: rest => if c.isDigit then (c :: rest).takeWhile Char.isDigit else digitRunAux rest

/-- First digit run of a string, empty if none. -/
def findDigitRun (s : String) : String := ⟨digitRunAux s.data⟩

/-- The ordinal-extraction idiom of the sheet processors: take the first digit
run of the cell and Atoi it; no digits (or overflow) leaves the field unset. -/
def parseOrdinal (s : String) : Option Int :=
  let m := findDigitRun s
  if m = "" then none else parseIntStr m

/-! ### Go time.Parse, for the layouts the pipeline uses

`runLayout` interprets a fixed layout the way Go's general layout parser
does on these layout elements: "2006" reads exactly four digits, "01", "02",
"04", "05" read exactly two, "15" reads one or two, and literals match
exactly.  Fields missing from a layout keep Go's parse defaults: January 1 of
year 0, midnight, UTC.  Range validation matches Go's. -/

/-- Read exactly two decimal digits. -/
def getnum2 : List Char → Option (Nat × List Char)
  | c1 :: c2 :: rest =>
    if c1.isDigit ∧ c2.isDigit then some (digitVal c1 * 10 + digitVal c2, rest) else none
  | _ => none

/-- Read exactly four decimal digits. -/
def getnum4 : List Char → Option (Nat × List Char)
  | c1 :: c2 :: c3 :: c4 :: rest =>
    if c1.isDigit ∧ c2.isDigit ∧ c3.isDigit ∧ c4.isDigit then
      some (((digitVal c1 * 10 + digitVal c2) * 10 + digitVal c3) * 10 + digitVal c4, rest)
    else none
  | _ => none

/-- Read one or two decimal digits (Go's non-fixed getnum). -/
def getnum12 : List Char → Option (Nat × List Char)
  | [] => none
  | c1 :: rest =>
    if c1.isDigit then
      match rest with
      | c2 :: rest2 =>
        if c2.isDigit then some (digitVal c1 * 10 + digitVal c2, rest2)
        else some (digitVal c1, rest)
      | [] => some (digitVal c1, [])
    else none

/-- Layout elements used by the pipeline's timestamp formats. -/
inductive LToken where
  | year4
  | month2
  | day2
  | hour2
  | hour12
  | minute2
  | second2
  | lit (c : Char)
deriving DecidableEq

/-- Go's parse defaults: January 1 of year 0, midnight, UTC. -/
def parseDefaultTs : Timestamp := ⟨0, 1, 1, 0, 0, 0, 0⟩

/-- Run a layout over the input, filling fields of the timestamp. -/
def runLayout : List LToken → List Char → Timestamp → Option (Timestamp × List Char)
  | [], cs, t => some (t, cs)
  | .year4 :: toks, cs, t =>
    (getnum4 cs).bind fun p => runLayout toks p.2 { t with year := p.1 }
  | .month2 :: toks, cs, t =>
    (getnum2 cs).bind fun p => runLayout toks p.2 { t with month := p.1 }
  | .day2 :: toks, cs, t =>
    (getnum2 cs).bind fun p => runLayout toks p.2 { t with day := p.1 }
  | .hour2 :: toks, cs, t =>
    (getnum2 cs).bind fun p => runLayout toks p.2 { t with hour := p.1 }
  | .hour12 :: toks, cs, t =>
    (getnum12 cs).bind fun p => runLayout toks p.2 { t with hour := p.1 }
  | .minute2 :: toks, cs, t =>
    (getnum2 cs).bind fun p => runLayout toks p.2 { t with minute := p.1 }
  | .second2 :: toks, cs, t =>
    (getnum2 cs).bind fun p => runLayout toks p.2 { t with second := p.1 }
  | .lit c :: toks, c2 :: cs, t => if c2 = c then runLayout toks cs t else none
  | .lit _ :: _, [], _ => none

/-- Gregorian leap-year rule. -/
def isLeapYear (y : Nat) : Bool :=
  y % 4 = 0 && (y % 100 ≠ 0 || y % 400 = 0)

/-- Number of days in a month (Go's daysIn). -/
def daysIn (y m : Nat) : Nat :=
  if m = 2 then (if isLeapYear y then 29 else 28)
  else if m = 4 ∨ m = 6 ∨ m = 9 ∨ m = 11 then 30
  else 31

/-- Go time.Parse field range validation. -/
def rangesOK (t : Timestamp) : Bool :=
  decide (1 ≤ t.month) && decide (t.month ≤ 12) &&
  decide (1 ≤ t.day) && decide (t.day ≤ daysIn t.year t.month) &&
  decide (t.hour ≤ 23) && decide (t.minute ≤ 59) && decide (t.second ≤ 59)

/-- Parse the whole input with a layout: no leftover input, ranges valid. -/
def parseWithLayout (toks : List LToken) (cs : List Char) : Option Timestamp :=
  match runLayout toks cs parseDefaultTs with
  | some (t, []) => if rangesOK t then some t else none
  | _ => none

/-- RFC 3339 numeric zone: Z, or a signed hh:mm offset with hh ≤ 23, mm ≤ 59. -/
def parseZoneStrict : List Char → Option (Int × List Char)
  | [] => none
  | c :: rest =>
    if c = 'Z' then some (0, rest)
    else if c = '+' ∨ c = '-' then
      match getnum2 rest with
      | some (hh, rest1) =>
        match rest1 with
        | c2 :: rest2 =>
          if c2 = ':' then
            match getnum2 rest2 with
            | some (mm, rest3) =>
              if hh ≤ 23 ∧ mm ≤ 59 then
                some (if c = '-' then -(hh * 60 + mm : Int) else (hh * 60 + mm : Int), rest3)
              else none
            | none => none
          else none
        | [] => none
      | none => none
    else none

/-- Consume an optional fractional-second part (a dot and at least one
digit); the fractional value itself is not stored. -/
def skipFrac : List Char → Option (List Char)
  | [] => some []
  | c :: rest =>
    if c = '.' then
      if rest.takeWhile Char.isDigit = [] then none
      else some (rest.dropWhile Char.isDigit)
    else some (c :: rest)

/-- The date-and-time part of the RFC 3339 layout. -/
def rfc3339Toks : List LToken :=
  [.year4, .lit '-', .month2, .lit '-', .day2, .lit 'T',
   .hour2, .lit ':', .minute2, .lit ':', .second2]

/-- Go time.Parse(time.RFC3339, s): strict date-time, optional fraction,
then Z or a signed hh:mm zone, with nothing left over. -/
def parseRFC3339 (s : String) : Option Timestamp :=
  match runLayout rfc3339Toks s.data parseDefaultTs with
  | some (t, rest) =>
    match skipFrac rest with
    | some rest2 =>
      match parseZoneStrict rest2 with
      | some (off, []) => if rangesOK t then some { t with offsetMin := off } else none
      | _ => none
    | none => none
  | none => none

/-- The fallback layouts ingest.ParseTimestamp tries after RFC 3339, in
order: "2006-01-02T15:04:05", "2006-01-02 15:04:05", "2006-01-02T15:04",
"2006-01-02 15:04", "2006-01-02", "15:04:05", "15:04". -/
def tsLayouts : List (List LToken) :=
  [[.year4, .lit '-', .month2, .lit '-', .day2, .lit 'T', .hour12, .lit ':', .minute2, .lit ':', .second2],
   [.year4, .lit '-', .month2, .lit '-', .day2, .lit ' ', .hour12, .lit ':', .minute2, .lit ':', .second2],
   [.year4, .lit '-', .month2, .lit '-', .day2, .lit 'T', .hour12, .lit ':', .minute2],
   [.year4, .lit '-', .month2, .lit '-', .day2, .lit ' ', .hour12, .lit ':', .minute2],
   [.year4, .lit '-', .month2, .lit '-', .day2],
   [.hour12, .lit ':', .minute2, .lit ':', .second2],
   [.hour12, .lit ':', .minute2]]

/-- ingest.ParseTimestamp: empty input is an error; otherwise the trimmed
input is tried against the format list, first success wins. -/
def ParseTimestamp (s : String) : Option Timestamp :=
  if s = "" then none
  else
    let cs := (trimSpace s).data
    match parseRFC3339 ⟨cs⟩ with
    | some t => some t
    | none => tsLayouts.findSome? fun toks => parseWithLayout toks cs

/-- The per-row timestamp idiom of every sheet processor: parse the cell of
the timestamp column; on any parse error keep the ingestion's reference
timestamp. -/
def resolveRowTS (defaultTS : Timestamp) (cell : String) : Timestamp :=
  (ParseTimestamp cell).getD defaultTS

/-! ## Cursor pagination (internal/api/pagination.go)

EncodeCursor/DecodeCursor use standard base64 with padding over the string
"{RFC3339 timestamp}|{row id}". -/

/-- The standard base64 alphabet. -/
def b64Alphabet : List Char :=
  "ABCDEFGHIJKLMNOPQRSTUVWXYZabcdefghijklmnopqrstuvwxyz0123456789+/".data

/-- Character for a six-bit group. -/
def encodeSextet (n : Nat) : Char := b64Alphabet.getD n 'A'

/-- Position of a character in a list. -/
def idxOfChar : List Char → Char → Option Nat
  | [], _ => none
  | a :: as, c => if a = c then some 0 else (idxOfChar as c).map (· + 1)

/-- Six-bit value of a base64 character, none if not in the alphabet. -/
def decodeSextet (c : Char) : Option Nat := idxOfChar b64Alphabet c

/-- Standard base64 encoding with padding of a byte list. -/
def b64encode : List Nat → List Char
  | [] => []
  | [x] => [encodeSextet (x / 4), encodeSextet (x % 4 * 16), '=', '=']
  | [x, y] =>
    [encodeSextet (x / 4), encodeSextet (x % 4 * 16 + y / 16), encodeSextet (y % 16 * 4), '=']
  | x :: y :: z :: rest =>
    encodeSextet (x / 4) :: encodeSextet (x % 4 * 16 + y / 16) ::
      encodeSextet (y % 16 * 4 + z / 64) :: encodeSextet (z % 64) :: b64encode rest

/-- Standard base64 decoding with padding: the input length must be a
multiple of four, padding may only close the final quantum. -/
def b64decode : List Char → Option (List Nat)
  | [] => some []
  | a :: b :: c :: d :: rest =>
    match decodeSextet a, decodeSextet b with
    | some sa, some sb =>
      if c = '=' then
        if d = '=' ∧ rest = [] then some [sa * 4 + sb / 16] else none
      else if d = '=' then
        match decodeSextet c with
        | some sc =>
          if rest = [] then some [sa * 4 + sb / 16, sb % 16 * 16 + sc / 4] else none
        | none => none
      else
        match decodeSextet c, decodeSextet d with
        | some sc, some sd =>
          (b64decode rest).map fun bs =>
            (sa * 4 + sb / 16) :: (sb % 16 * 16 + sc / 4) :: (sc % 4 * 64 + sd) :: bs
        | _, _ => none
    | _, _ => none
  | _ => none

/-- api.EncodeCursor: base64 of "{RFC3339 timestamp}|{row id}". -/
def EncodeCursor (ts : Timestamp) (id : Int) : String :=
  ⟨b64encode (stringToBytes (formatRFC3339 ts ++ "|" ++ intToString id))⟩

/-- Bytes back to characters (the Go code views the decoded bytes as a
string; on the ASCII byte range this is the code-point identity). -/
def bytesToChars (bs : List Nat) : List Char := bs.map Char.ofNat

/-- Go strings.Split with separator "|". -/
def splitBar : List Char → List (List Char)
  | [] => [[]]
  | c :: rest =>
    match splitBar rest with
    | [] => [[]]
    | p :: ps => if c = '|' then [] :: p :: ps else (c :: p) :: ps

/-- The zero value of Go time.Time: January 1, year 1, midnight UTC. -/
def zeroTime : Timestamp := ⟨1, 1, 1, 0, 0, 0, 0⟩

/-- api.DecodeCursor: the empty cursor is the no-lower-bound sentinel
(zero time, id 0, no error); otherwise base64-decode, split on "|" into
exactly two parts, parse the RFC3339 timestamp and the int64 id; any
failure is an error (none). -/
def DecodeCursor (s : String) : Option (Timestamp × Int) :=
  if s = "" then some (zeroTime, 0)
  else
    match b64decode s.data with
    | none => none
    | some bytes =>
      match splitBar (bytesToChars bytes) with
      | [p1, p2] =>
        match parseRFC3339 ⟨p1⟩ with
        | none => none
        | some ts =>
          match parseIntStr ⟨p2⟩ with
          | none => none
          | some id => some (ts, id)
      | _ => none

/-- A timestamp whose RFC 3339 rendering Go can parse back: in-range fields,
a four-digit year, and a zone offset within ±23:59. -/
def validTimestamp (t : Timestamp) : Prop :=
  t.year ≤ 9999 ∧ 1 ≤ t.month ∧ t.month ≤ 12 ∧ 1 ≤ t.day ∧
  t.day ≤ daysIn t.year t.month ∧ t.hour ≤ 23 ∧ t.minute ≤ 59 ∧ t.second ≤ 59 ∧
  -1439 ≤ t.offsetMin ∧ t.offsetMin ≤ 1439

instance (t : Timestamp) : Decidable (validTimestamp t) := by
  unfold validTimestamp
  infer_instance

/-- A cursor s is malformed when its base64 decoding fails, or it does not
split into exactly two parts on "|", or the timestamp part does not parse as
RFC 3339, or the id part does not parse as an int64. -/
def malformedCursor (s : String) : Prop :=
  match b64decode s.data with
  | none => True
  | some bytes =>
    match splitBar (bytesToChars bytes) with
    | [p1, p2] => parseRFC3339 ⟨p1⟩ = none ∨ parseIntStr ⟨p2⟩ = none
    | _ => True

/-- A character that may appear inside a cursor payload: single byte, not
the field separator. -/
def cursorSafe (c : Char) : Prop := c.toNat < 256 ∧ c ≠ '|'

/-! ## Field validators (internal/ingest, mapping.go)

Each validator takes the parsed optional field values and returns the list of
warning strings, in the order the Go code appends them. -/

/-- ValidateEngineData from the ingest package: rpm and oil pressure must be
non-negative; temperature is not checked. -/
def ValidateEngineData (rpm temp pressure : Option ℚ) : List String :=
  (match rpm with
   | some r => if r < 0 then ["negative rpm"] else []
   | none => []) ++
  (match pressure with
   | some p => if p < 0 then ["negative oil pressure"] else []
   | none => [])

/-- ValidateFuelData from the ingest package: level must lie in [0,100],
volume must be non-negative; temperature is not checked. -/
def ValidateFuelData (level volume temp : Option ℚ) : List String :=
  (match level with
   | some l => if l < 0 ∨ l > 100 then ["invalid fuel level percentage"] else []
   | none => []) ++
  (match volume with
   | some v => if v < 0 then ["negative fuel volume"] else []
   | none => [])

/-- ValidateGeneratorData from the ingest package: load, voltage and fuel rate
must be non-negative, frequency must lie in [45,70]. -/
def ValidateGeneratorData (load voltage frequency fuelRate : Option ℚ) : List String :=
  (match load with
   | some l => if l < 0 then ["negative generator load"] else []
   | none => []) ++
  (match voltage with
   | some v => if v < 0 then ["negative voltage"] else []
   | none => []) ++
  (match frequency with
   | some f => if f < 45 ∨ f > 70 then ["frequency out of range (45-70 Hz)"] else []
   | none => []) ++
  (match fuelRate with
   | some fr => if fr < 0 then ["negative fuel rate"] else []
   | none => [])

/-- ValidateLocationData from the ingest package: latitude in [-90,90],
longitude in [-180,180], course in [0,360], speed non-negative. -/
def ValidateLocationData (latitude longitude course speed : Option ℚ) : List String :=
  (match latitude with
   | some la => if la < -90 ∨ la > 90 then ["latitude out of range (-90 to 90)"] else []
   | none => []) ++
  (match longitude with
   | some lo => if lo < -180 ∨ lo > 180 then ["longitude out of range (-180 to 180)"] else []
   | none => []) ++
  (match course with
   | some co => if co < 0 ∨ co > 360 then ["course out of range (0-360 degrees)"] else []
   | none => []) ++
  (match speed with
   | some sp => if sp < 0 then ["negative speed"] else []
   | none => [])

/-! ## Header mapping (internal/ingest, HeaderMapper) -/

/-- Go map assignment on an association list: replace the entry with this
key, or append a new one. -/
def setEntry (m : List (String × String)) (k v : String) : List (String × String) :=
  if m.any (fun e => e.1 == k) then
    m.map (fun e => if e.1 == k then (k, v) else e)
  else m ++ [(k, v)]

/-- normalizeHeader: trim, lower-case, spaces and hyphens to underscores. -/
def normalizeHeader (h : String) : String :=
  replaceChar (replaceChar (toLowerStr (trimSpace h)) ' ' '_') '-' '_'

/-- NewHeaderMapper: a map from normalized header to original header, last
write wins.  Go iterates the map in unspecified order during substring
scans; this model iterates in insertion order. -/
def NewHeaderMapper (headers : List String) : List (String × String) :=
  headers.foldl (fun m h => setEntry m (normalizeHeader h) h) []

/-- FindHeader: for each pattern in order, first an exact lookup among the
normalized headers, then a substring scan; first hit wins. -/
def FindHeader (hm : List (String × String)) (patterns : List String) : Option String :=
  patterns.findSome? fun pat =>
    match hm.find? (fun e => e.1 == pat) with
    | some e => some e.2
    | none => (hm.find? (fun e => containsStr e.1 pat)).map (fun e => e.2)

/-- FindTimestampHeader: FindHeader over the fixed timestamp synonym list. -/
def FindTimestampHeader (hm : List (String × String)) : Option String :=
  FindHeader hm
    ["timestamp", "ts", "time", "date", "datetime",
     "date_time", "time_stamp", "record_time", "log_time",
     "created_at", "recorded_at", "sample_time", "measurement_time",
     "utc", "local_time", "system_time", "event_time"]

/-! ## Row maps and the extra-fields payload -/

/-- A data row as a header-to-cell map, built by Go map assignment in cell
order, ignoring cells beyond the header row's width. -/
def buildRow (headers cells : List String) : List (String × String) :=
  (headers.zip cells).foldl (fun m p => setEntry m p.1 p.2) []

/-- Go map read with the string zero value as default. -/
def rowGet (row : List (String × String)) (k : String) : String :=
  ((row.find? (fun e => e.1 == k)).map (fun e => e.2)).getD ""

/-- JSON string escaping for the quote and backslash; the payloads this
pipeline serializes contain neither, the remaining escapes of Go's encoder
are not modelled. -/
def jsonEscape (s : String) : String :=
  ⟨s.data.foldr
    (fun c acc =>
      if c = '"' then '\\' :: '"' :: acc
      else if c = '\\' then '\\' :: '\\' :: acc
      else c :: acc) []⟩

/-- BuildExtraJSON: every unmapped non-empty column, serialized as a JSON
object; an explicit empty object when nothing remains.  Go's json.Marshal
writes map keys in sorted order. -/
def BuildExtraJSON (row : List (String × String)) (mappedCols : List String) : String :=
  let extra := row.filter (fun e => !(mappedCols.contains e.1) && e.2 != "")
  if extra = [] then "\x7b\x7d"
  else
    let sorted := List.insertionSort (fun a b => a.1 ≤ b.1) extra
    "\x7b" ++
      joinSep ","
        (sorted.map (fun e => "\"" ++ jsonEscape e.1 ++ "\":\"" ++ jsonEscape e.2 ++ "\"")) ++
      "\x7d"

/-- Decimal rendering of a natural number. -/
def natToString (n : Nat) : String := ⟨natDigits n⟩

/-! ## Data model (internal/models and schema.sql) -/

/-- A vessels row. -/
structure Vessel where
  id : Int
  imo : Option String
  name : Option String
  flag : Option String
  vtype : Option String
deriving DecidableEq

/-- An uploads row. -/
structure Upload where
  id : Int
  vesselId : Int
  sourceFilename : String
  fileHash : String
  uploadedAt : Timestamp
deriving DecidableEq

/-- An engine_readings row. -/
structure EngineReading where
  vesselId : Int
  engineNo : Option Int
  ts : Timestamp
  rpm : Option ℚ
  tempC : Option ℚ
  oilPressureBar : Option ℚ
  alarms : Option String
  rowHash : String
  extraJson : String
deriving DecidableEq

/-- A fuel_tank_readings row. -/
structure FuelReading where
  vesselId : Int
  tankNo : Option Int
  ts : Timestamp
  levelPercent : Option ℚ
  volumeLiters : Option ℚ
  tempC : Option ℚ
  rowHash : String
  extraJson : String
deriving DecidableEq

/-- A generator_readings row. -/
structure GeneratorReading where
  vesselId : Int
  genNo : Option Int
  ts : Timestamp
  loadKw : Option ℚ
  voltageV : Option ℚ
  frequencyHz : Option ℚ
  fuelRateLph : Option ℚ
  rowHash : String
  extraJson : String
deriving DecidableEq

/-- A cctv_status_readings row. -/
structure CCTVReading where
  vesselId : Int
  camId : Option String
  ts : Timestamp
  status : Option String
  uptimePercent : Option ℚ
  rowHash : String
  extraJson : String
deriving DecidableEq

/-- An impact_vibration_readings row. -/
structure ImpactReading where
  vesselId : Int
  sensorId : Option String
  ts : Timestamp
  accelG : Option ℚ
  shockG : Option ℚ
  notes : Option String
  rowHash : String
  extraJson : String
deriving DecidableEq

/-- A location_readings row. -/
structure LocationReading where
  vesselId : Int
  ts : Timestamp
  latitude : Option ℚ
  longitude : Option ℚ
  courseDegrees : Option ℚ
  speedKnots : Option ℚ
  status : Option String
  rowHash : String
  extraJson : String
deriving DecidableEq

/-- The SQLite database as tables-of-lists. -/
structure DBState where
  vessels : List Vessel
  uploads : List Upload
  engineReadings : List EngineReading
  fuelReadings : List FuelReading
  generatorReadings : List GeneratorReading
  cctvReadings : List CCTVReading
  impactReadings : List ImpactReading
  locationReadings : List LocationReading
  streamLatest : List (Int × String × Timestamp)
deriving DecidableEq

/-- The empty database. -/
def DBState.empty : DBState := ⟨[], [], [], [], [], [], [], [], []⟩

/-- models.IngestResponse. -/
structure IngestResponse where
  status : String
  uploadId : Option Int
  vesselId : Option Int
  rowsInserted : List (String × Nat)
  warnings : List String
deriving DecidableEq

/-- A parsed workbook from the excelize collaborator: sheet names with their
rows (header row first), in file order. -/
abbrev Workbook := List (String × List (List String))

/-- INSERT OR IGNORE into engine_readings, unique on (vessel_id, ts,
row_hash); a conflict is a silent no-op. -/
def insertIgnoreEngine (db : DBState) (r : EngineReading) : DBState :=
  if db.engineReadings.any
      (fun e => e.vesselId == r.vesselId && e.ts == r.ts && e.rowHash == r.rowHash)
  then db else { db with engineReadings := db.engineReadings ++ [r] }

/-- INSERT OR IGNORE into fuel_tank_readings. -/
def insertIgnoreFuel (db : DBState) (r : FuelReading) : DBState :=
  if db.fuelReadings.any
      (fun e => e.vesselId == r.vesselId && e.ts == r.ts && e.rowHash == r.rowHash)
  then db else { db with fuelReadings := db.fuelReadings ++ [r] }

/-- INSERT OR IGNORE into generator_readings. -/
def insertIgnoreGenerator (db : DBState) (r : GeneratorReading) : DBState :=
  if db.generatorReadings.any
      (fun e => e.vesselId == r.vesselId && e.ts == r.ts && e.rowHash == r.rowHash)
  then db else { db with generatorReadings := db.generatorReadings ++ [r] }

/-- INSERT OR IGNORE into cctv_status_readings. -/
def insertIgnoreCCTV (db : DBState) (r : CCTVReading) : DBState :=
  if db.cctvReadings.any
      (fun e => e.vesselId == r.vesselId && e.ts == r.ts && e.rowHash == r.rowHash)
  then db else { db with cctvReadings := db.cctvReadings ++ [r] }

/-- INSERT OR IGNORE into impact_vibration_readings. -/
def insertIgnoreImpact (db : DBState) (r : ImpactReading) : DBState :=
  if db.impactReadings.any
      (fun e => e.vesselId == r.vesselId && e.ts == r.ts && e.rowHash == r.rowHash)
  then db else { db with impactReadings := db.impactReadings ++ [r] }

/-- INSERT OR IGNORE into location_readings. -/
def insertIgnoreLocation (db : DBState) (r : LocationReading) : DBState :=
  if db.locationReadings.any
      (fun e => e.vesselId == r.vesselId && e.ts == r.ts && e.rowHash == r.rowHash)
  then db else { db with locationReadings := db.locationReadings ++ [r] }

/-- INSERT INTO vessels, returning the autoincremented id. -/
def insertVessel (db : DBState) (imo name flag vtype : Option String) : Int × DBState :=
  let id : Int := db.vessels.length + 1
  (id, { db with vessels := db.vessels ++ [⟨id, imo, name, flag, vtype⟩] })

/-! ## Sheet processors (internal/ingest/xlsx.go) -/

/-- The per-row timestamp resolution of every sheet processor: the timestamp
column's cell if present and parseable, else the reference timestamp. -/
def rowTS (tsCol : Option String) (row : List (String × String)) (defaultTS : Timestamp) :
    Timestamp :=
  match tsCol with
  | some c => resolveRowTS defaultTS (rowGet row c)
  | none => defaultTS

/-- Parse an optional float column of a row. -/
def colFloat (col : Option String) (row : List (String × String)) : Option ℚ :=
  match col with
  | some c => ParseFloat (rowGet row c)
  | none => none

/-- Read an optional string column of a row, empty cells giving none. -/
def colString (col : Option String) (row : List (String × String)) : Option String :=
  match col with
  | some c => if rowGet row c ≠ "" then some (rowGet row c) else none
  | none => none

/-- Extract the digit-run ordinal of a column (engine/tank/generator no.). -/
def colOrdinal (col : Option String) (row : List (String × String)) : Option Int :=
  match col with
  | some c => parseOrdinal (rowGet row c)
  | none => none

/-- One data row of the engine sheet (xlsx.go lines 314-386): parse, skip
with a warning if validation fires, else hash and build the reading. -/
def processEngineRow (tsCol engineNoCol rpmCol tempCol pressureCol alarmsCol : Option String)
    (mappedCols : List String) (vesselID : Int) (defaultTS : Timestamp) (rowIdx : Nat)
    (headers cells : List String) : Option EngineReading × List String :=
  let row := buildRow headers cells
  let ts := rowTS tsCol row defaultTS
  let engineNo := colOrdinal engineNoCol row
  let rpm := colFloat rpmCol row
  let tempC := colFloat tempCol row
  let oilPressure := colFloat pressureCol row
  let alarms := colString alarmsCol row
  let warns := ValidateEngineData rpm tempC oilPressure
  if warns ≠ [] then
    (none, ["row " ++ natToString (rowIdx + 1) ++ " engines: " ++ joinSep ", " warns])
  else
    let extraJSON := BuildExtraJSON row mappedCols
    let hashKeys := (match engineNo with
      | some n => ["engine_no:" ++ intToString n]
      | none => []) ++ [extraJSON]
    let rowHash := HashRow vesselID ts "engines" hashKeys
    (some ⟨vesselID, engineNo, ts, rpm, tempC, oilPressure, alarms, rowHash, extraJSON⟩, [])

/-- processEngineSheet: header/column resolution, then the row loop. -/
def processEngineSheet (sheetName : String) (rows : List (List String)) (vesselID : Int)
    (defaultTS : Timestamp) (db : DBState) : Nat × List String × DBState :=
  match rows with
  | [] => (0, ["error reading " ++ sheetName ++ " sheet"], db)
  | headers :: dataRows =>
    if dataRows = [] then (0, ["error reading " ++ sheetName ++ " sheet"], db)
    else
      let mapper := NewHeaderMapper headers
      let tsCol := FindTimestampHeader mapper
      let engineNoCol := FindHeader mapper ["engine_no", "engine", "eng_no"]
      let rpmCol := FindHeader mapper ["rpm"]
      let tempCol := FindHeader mapper ["temp", "temperature", "temp_c"]
      let pressureCol := FindHeader mapper ["oil_pressure", "pressure", "oil_press"]
      let alarmsCol := FindHeader mapper ["alarm", "alarms", "alert"]
      let mappedCols := [tsCol.getD "", engineNoCol.getD "", rpmCol.getD "",
        tempCol.getD "", pressureCol.getD "", alarmsCol.getD ""]
      dataRows.enum.foldl
        (fun acc p =>
          match processEngineRow tsCol engineNoCol rpmCol tempCol pressureCol alarmsCol
              mappedCols vesselID defaultTS (p.1 + 1) headers p.2 with
          | (some r, w) => (acc.1 + 1, acc.2.1 ++ w, insertIgnoreEngine acc.2.2 r)
          | (none, w) => (acc.1, acc.2.1 ++ w, acc.2.2))
        (0, [], db)

/-- isM3Header (processFuelSheet): lower-cased header contains "(m3)" or
"m3". -/
def isM3Header (h : String) : Bool :=
  containsStr (toLowerStr h) "(m3)" || containsStr (toLowerStr h) "m3"

/-- Capacity in liters of one fuel row (xlsx.go lines 469-478): the parsed
capacity cell, times 1000 when its header is in cubic meters. -/
def fuelCapLiters (capCol : Option String) (row : List (String × String)) : Option ℚ :=
  match capCol with
  | some c =>
    match ParseFloat (rowGet row c) with
    | some v => some (if isM3Header c then v * 1000 else v)
    | none => none
  | none => none

/-- Current volume in liters of one fuel row (lines 481-499): the dedicated
current column when present, else the capacity column reused as the current
level. -/
def fuelCurLiters (curCol capCol : Option String) (row : List (String × String)) : Option ℚ :=
  match curCol with
  | some c =>
    match ParseFloat (rowGet row c) with
    | some v => some (if isM3Header c then v * 1000 else v)
    | none => none
  | none =>
    match capCol with
    | some c =>
      match ParseFloat (rowGet row c) with
      | some v => some (if isM3Header c then v * 1000 else v)
      | none => none
    | none => none

/-- Derived fuel level percent (lines 508-512): current/capacity*100, only
when both are present and the capacity is positive. -/
def fuelLevelPercent (cur cap : Option ℚ) : Option ℚ :=
  match cur, cap with
  | some cu, some ca => if ca > 0 then some (cu / ca * 100) else none
  | _, _ => none

/-- One data row of the fuel sheet (lines 439-549). -/
def processFuelRow (tsCol tankNoCol capCol curCol tempCol : Option String)
    (vesselID : Int) (defaultTS : Timestamp) (rowIdx : Nat)
    (headers cells : List String) : Option FuelReading × List String :=
  let row := buildRow headers cells
  let ts := rowTS tsCol row defaultTS
  let tankNo := colOrdinal tankNoCol row
  let capLiters := fuelCapLiters capCol row
  let curLiters := fuelCurLiters curCol capCol row
  let tempC := colFloat tempCol row
  let levelPercent := fuelLevelPercent curLiters capLiters
  let warns := ValidateFuelData levelPercent curLiters tempC
  if warns ≠ [] then
    (none, ["row " ++ natToString (rowIdx + 1) ++ " fuel: " ++ joinSep ", " warns])
  else
    let mappedCols :=
      (match tsCol with | some c => [c] | none => []) ++
      (match tankNoCol with | some c => [c] | none => []) ++
      (match capCol with | some c => [c] | none => []) ++
      (match curCol with | some c => [c] | none => []) ++
      (match tempCol with | some c => [c] | none => [])
    let extraJSON := BuildExtraJSON row mappedCols
    let hashKeys := (match tankNo with
      | some n => ["tank_no:" ++ intToString n]
      | none => []) ++ [extraJSON]
    let rowHash := HashRow vesselID ts "fuel" hashKeys
    (some ⟨vesselID, tankNo, ts, levelPercent, curLiters, tempC, rowHash, extraJSON⟩, [])

/-- processFuelSheet: header/column resolution, then the row loop. -/
def processFuelSheet (sheetName : String) (rows : List (List String)) (vesselID : Int)
    (defaultTS : Timestamp) (db : DBState) : Nat × List String × DBState :=
  match rows with
  | [] => (0, ["error reading " ++ sheetName ++ " sheet"], db)
  | headers :: dataRows =>
    if dataRows = [] then (0, ["error reading " ++ sheetName ++ " sheet"], db)
    else
      let mapper := NewHeaderMapper headers
      let tsCol := FindTimestampHeader mapper
      let tankNoCol := FindHeader mapper ["tank_no", "tank", "tank_id", "Tank ID"]
      let capCol := FindHeader mapper ["capacity", "Capacity(m3)", "volume", "volume_liters"]
      let curCol := FindHeader mapper
        ["current", "Current Level(m3)", "current_level", "current_volume", "volume_liters"]
      let tempCol := FindHeader mapper ["temp", "temperature", "temp_c"]
      dataRows.enum.foldl
        (fun acc p =>
          match processFuelRow tsCol tankNoCol capCol curCol tempCol
              vesselID defaultTS (p.1 + 1) headers p.2 with
          | (some r, w) => (acc.1 + 1, acc.2.1 ++ w, insertIgnoreFuel acc.2.2 r)
          | (none, w) => (acc.1, acc.2.1 ++ w, acc.2.2))
        (0, [], db)

/-- One data row of the generator sheet (lines 576-646). -/
def processGeneratorRow (tsCol genNoCol loadCol voltageCol freqCol fuelRateCol : Option String)
    (mappedCols : List String) (vesselID : Int) (defaultTS : Timestamp) (rowIdx : Nat)
    (headers cells : List String) : Option GeneratorReading × List String :=
  let row := buildRow headers cells
  let ts := rowTS tsCol row defaultTS
  let genNo := colOrdinal genNoCol row
  let loadKW := colFloat loadCol row
  let voltageV := colFloat voltageCol row
  let frequencyHz := colFloat freqCol row
  let fuelRateLPH := colFloat fuelRateCol row
  let warns := ValidateGeneratorData loadKW voltageV frequencyHz fuelRateLPH
  if warns ≠ [] then
    (none, ["row " ++ natToString (rowIdx + 1) ++ " generators: " ++ joinSep ", " warns])
  else
    let extraJSON := BuildExtraJSON row mappedCols
    let hashKeys := (match genNo with
      | some n => ["gen_no:" ++ intToString n]
      | none => []) ++ [extraJSON]
    let rowHash := HashRow vesselID ts "generators" hashKeys
    (some ⟨vesselID, genNo, ts, loadKW, voltageV, frequencyHz, fuelRateLPH, rowHash, extraJSON⟩, [])

/-- processGeneratorSheet: header/column resolution, then the row loop. -/
def processGeneratorSheet (sheetName : String) (rows : List (List String)) (vesselID : Int)
    (defaultTS : Timestamp) (db : DBState) : Nat × List String × DBState :=
  match rows with
  | [] => (0, ["error reading " ++ sheetName ++ " sheet"], db)
  | headers :: dataRows =>
    if dataRows = [] then (0, ["error reading " ++ sheetName ++ " sheet"], db)
    else
      let mapper := NewHeaderMapper headers
      let tsCol := FindTimestampHeader mapper
      let genNoCol := FindHeader mapper ["gen_no", "generator", "gen", "generator_no"]
      let loadCol := FindHeader mapper ["load", "load_kw", "power"]
      let voltageCol := FindHeader mapper ["voltage", "volt", "voltage_v"]
      let freqCol := FindHeader mapper ["frequency", "freq", "frequency_hz"]
      let fuelRateCol := FindHeader mapper ["fuel_rate", "fuel_rate_lph", "consumption"]
      let mappedCols := [tsCol.getD "", genNoCol.getD "", loadCol.getD "",
        voltageCol.getD "", freqCol.getD "", fuelRateCol.getD ""]
      dataRows.enum.foldl
        (fun acc p =>
          match processGeneratorRow tsCol genNoCol loadCol voltageCol freqCol fuelRateCol
              mappedCols vesselID defaultTS (p.1 + 1) headers p.2 with
          | (some r, w) => (acc.1 + 1, acc.2.1 ++ w, insertIgnoreGenerator acc.2.2 r)
          | (none, w) => (acc.1, acc.2.1 ++ w, acc.2.2))
        (0, [], db)

/-- One data row of the cctv sheet (lines 670-723); no validator runs, the
row is always inserted. -/
def processCCTVRow (tsCol camIDCol statusCol uptimeCol : Option String)
    (mappedCols : List String) (vesselID : Int) (defaultTS : Timestamp)
    (headers cells : List String) : CCTVReading :=
  let row := buildRow headers cells
  let ts := rowTS tsCol row defaultTS
  let camID := colString camIDCol row
  let status := colString statusCol row
  let uptimePercent := colFloat uptimeCol row
  let extraJSON := BuildExtraJSON row mappedCols
  let hashKeys := (match camID with
    | some c => ["cam_id:" ++ c]
    | none => []) ++ [extraJSON]
  let rowHash := HashRow vesselID ts "cctv" hashKeys
  ⟨vesselID, camID, ts, status, uptimePercent, rowHash, extraJSON⟩

/-- processCCTVSheet: header/column resolution, then the row loop. -/
def processCCTVSheet (sheetName : String) (rows : List (List String)) (vesselID : Int)
    (defaultTS : Timestamp) (db : DBState) : Nat × List String × DBState :=
  match rows with
  | [] => (0, ["error reading " ++ sheetName ++ " sheet"], db)
  | headers :: dataRows =>
    if dataRows = [] then (0, ["error reading " ++ sheetName ++ " sheet"], db)
    else
      let mapper := NewHeaderMapper headers
      let tsCol := FindTimestampHeader mapper
      let camIDCol := FindHeader mapper ["cam_id", "camera", "camera_id", "cam"]
      let statusCol := FindHeader mapper ["status", "state"]
      let uptimeCol := FindHeader mapper ["uptime", "uptime_percent", "availability"]
      let mappedCols := [tsCol.getD "", camIDCol.getD "", statusCol.getD "", uptimeCol.getD ""]
      dataRows.foldl
        (fun acc cells =>
          let r := processCCTVRow tsCol camIDCol statusCol uptimeCol
            mappedCols vesselID defaultTS headers cells
          (acc.1 + 1, acc.2.1, insertIgnoreCCTV acc.2.2 r))
        (0, [], db)

/-- One data row of the impact sheet (lines 748-804); no validator runs, the
row is always inserted. -/
def processImpactRow (tsCol sensorIDCol accelCol shockCol notesCol : Option String)
    (mappedCols : List String) (vesselID : Int) (defaultTS : Timestamp)
    (headers cells : List String) : ImpactReading :=
  let row := buildRow headers cells
  let ts := rowTS tsCol row defaultTS
  let sensorID := colString sensorIDCol row
  let accelG := colFloat accelCol row
  let shockG := colFloat shockCol row
  let notes := colString notesCol row
  let extraJSON := BuildExtraJSON row mappedCols
  let hashKeys := (match sensorID with
    | some c => ["sensor_id:" ++ c]
    | none => []) ++ [extraJSON]
  let rowHash := HashRow vesselID ts "impact" hashKeys
  ⟨vesselID, sensorID, ts, accelG, shockG, notes, rowHash, extraJSON⟩

/-- processImpactSheet: header/column resolution, then the row loop. -/
def processImpactSheet (sheetName : String) (rows : List (List String)) (vesselID : Int)
    (defaultTS : Timestamp) (db : DBState) : Nat × List String × DBState :=
  match rows with
  | [] => (0, ["error reading " ++ sheetName ++ " sheet"], db)
  | headers :: dataRows =>
    if dataRows = [] then (0, ["error reading " ++ sheetName ++ " sheet"], db)
    else
      let mapper := NewHeaderMapper headers
      let tsCol := FindTimestampHeader mapper
      let sensorIDCol := FindHeader mapper ["sensor_id", "sensor", "device_id"]
      let accelCol := FindHeader mapper ["accel", "acceleration", "accel_g"]
      let shockCol := FindHeader mapper ["shock", "shock_g", "impact"]
      let notesCol := FindHeader mapper ["notes", "note", "comment"]
      let mappedCols := [tsCol.getD "", sensorIDCol.getD "", accelCol.getD "",
        shockCol.getD "", notesCol.getD ""]
      dataRows.foldl
        (fun acc cells =>
          let r := processImpactRow tsCol sensorIDCol accelCol shockCol notesCol
            mappedCols vesselID defaultTS headers cells
          (acc.1 + 1, acc.2.1, insertIgnoreImpact acc.2.2 r))
        (0, [], db)

/-! ## Location extraction from the ship-info sheet -/

/-- The parsed location fields of the ship-info row (xlsx.go lines
839-862). -/
def locationParsed (headers data : List String) (mapper : List (String × String)) :
    Option ℚ × Option ℚ × Option ℚ × Option ℚ × Option String :=
  let row := buildRow headers data
  let latitude := colFloat (FindHeader mapper ["latitude", "lat"]) row
  let longitude := colFloat (FindHeader mapper ["longitude", "lon", "lng"]) row
  let course := colFloat (FindHeader mapper ["course", "heading", "bearing"]) row
  let speed := colFloat (FindHeader mapper ["speed", "speed_knots", "speed(knots)"]) row
  let status := colString (FindHeader mapper ["status", "vessel_status", "nav_status"]) row
  (latitude, longitude, course, speed, status)

/-- processLocationFromShipInfo (xlsx.go lines 820-913): parse the single
metadata row; on any validation warning record it and return without
inserting; return silently when no location field is present; otherwise
insert the reading with ignore-on-conflict. -/
def processLocationFromShipInfo (headers data : List String) (vesselID : Int)
    (defaultTS : Timestamp) (mapper : List (String × String)) (db : DBState) :
    Nat × List String × DBState :=
  let row := buildRow headers data
  let ts := rowTS (FindTimestampHeader mapper) row defaultTS
  let (latitude, longitude, course, speed, status) := locationParsed headers data mapper
  let warns := ValidateLocationData latitude longitude course speed
  if warns ≠ [] then
    (0, ["location data: " ++ joinSep ", " warns], db)
  else if latitude = none ∧ longitude = none ∧ course = none ∧ speed = none ∧ status = none then
    (0, [], db)
  else
    let mappedCols := headers.filter (fun h =>
      let hl := toLowerStr h
      containsStr hl "lat" || containsStr hl "lon" || containsStr hl "course" ||
      containsStr hl "speed" || containsStr hl "status" || containsStr hl "time" ||
      containsStr hl "name" || containsStr hl "imo")
    let extraJSON := BuildExtraJSON row mappedCols
    let hashKeys := (match status with
      | some st => ["status:" ++ st]
      | none => []) ++ [extraJSON]
    let rowHash := HashRow vesselID ts "location" hashKeys
    (1, [], insertIgnoreLocation db
      ⟨vesselID, ts, latitude, longitude, course, speed, status, rowHash, extraJSON⟩)

/-! ## Vessel resolution and the ingestion orchestrator -/

/-- The no-ship-info fallback of processShipInfo (xlsx.go lines 136-161 and
165-189): insert a vessel from the request parameters alone; an error when
neither an IMO nor a name was supplied. -/
def vesselFromParams (providedIMO vesselName : String) (db : DBState) :
    Option (Int × Nat × List String × DBState) :=
  if providedIMO ≠ "" then
    let name := if vesselName = "" then "Vessel-" ++ providedIMO else vesselName
    let (id, db1) := insertVessel db (some providedIMO) (some name) none none
    some (id, 0, [], db1)
  else if vesselName = "" then none
  else
    let (id, db1) := insertVessel db none (some vesselName) none none
    some (id, 0, [], db1)

/-- Scan the ship-info headers for the data cell of a found column (lines
202-208 and analogous): the first position whose header equals the column
and whose cell is non-empty. -/
def lookupCell (headers data : List String) (col : String) : Option String :=
  ((headers.zip data).find? (fun p => p.1 == col && p.2 != "")).map (fun p => p.2)

/-- The resolved IMO of processShipInfo (lines 196-209): the provided IMO
parameter always wins; only when it is empty is the sheet's IMO column
consulted. -/
def resolveShipInfoIMO (providedIMO : String) (headers data : List String)
    (mapper : List (String × String)) : Option String :=
  if providedIMO ≠ "" then some providedIMO
  else
    match FindHeader mapper ["imo"] with
    | some imoCol => lookupCell headers data imoCol
    | none => none

/-- processShipInfo (xlsx.go lines 125-286): find the ship-info sheet, fall
back to the request parameters when it is missing or has fewer than two
rows; otherwise resolve imo/name/flag/type, update the vessel matching the
IMO or insert a new one, and extract the embedded location reading.  The
none results model Go's fatal paths, including the nil-name dereference Go
would panic on when neither a name nor an IMO is resolvable. -/
def processShipInfo (f : Workbook) (providedIMO vesselName : String)
    (uploadedAt : Timestamp) (db : DBState) :
    Option (Int × Nat × List String × DBState) :=
  match f.find? (fun s =>
    containsStr (toLowerStr s.1) "ship" && containsStr (toLowerStr s.1) "info") with
  | none => vesselFromParams providedIMO vesselName db
  | some sheet =>
    match sheet.2 with
    | [] => vesselFromParams providedIMO vesselName db
    | [_] => vesselFromParams providedIMO vesselName db
    | headers :: data :: _ =>
      let mapper := NewHeaderMapper headers
      let imo := resolveShipInfoIMO providedIMO headers data mapper
      let name0 : Option String := match FindHeader mapper ["name", "vessel_name", "ship_name"] with
        | some c => lookupCell headers data c
        | none => none
      let flag : Option String := match FindHeader mapper ["flag"] with
        | some c => lookupCell headers data c
        | none => none
      let vtype : Option String := match FindHeader mapper ["type", "vessel_type", "ship_type"] with
        | some c => lookupCell headers data c
        | none => none
      let name : Option String := match name0 with
        | some n => some n
        | none =>
          if vesselName ≠ "" then some vesselName
          else match imo with
            | some im => some ("Vessel-" ++ im)
            | none => none
      let existing : Option Vessel := match imo with
        | some im => db.vessels.find? (fun v => v.imo == some im)
        | none => none
      match existing with
      | some v =>
        match name with
        | none => none
        | some nm =>
          let db1 := { db with vessels := db.vessels.map (fun w =>
            if w.id == v.id then { w with name := some nm, flag := flag, vtype := vtype }
            else w) }
          let (cnt, warns, db2) :=
            processLocationFromShipInfo headers data v.id uploadedAt mapper db1
          some (v.id, cnt, warns, db2)
      | none =>
        match name with
        | none => none
        | some nm =>
          let (vid, db1) := insertVessel db imo (some nm) flag vtype
          let (cnt, warns, db2) :=
            processLocationFromShipInfo headers data vid uploadedAt mapper db1
          some (vid, cnt, warns, db2)

/-- Go map assignment for the per-stream counts. -/
def setCount (m : List (String × Nat)) (k : String) (v : Nat) : List (String × Nat) :=
  if m.any (fun e => e.1 == k) then m.map (fun e => if e.1 == k then (k, v) else e)
  else m ++ [(k, v)]

/-- The sheet-classification switch of ProcessFile (lines 86-111). -/
def classifySheet (vesselID : Int) (uploadedAt : Timestamp)
    (acc : List (String × Nat) × List String × DBState)
    (sheet : String × List (List String)) :
    List (String × Nat) × List String × DBState :=
  let nameLower := toLowerStr sheet.1
  if containsStr nameLower "engine" then
    let (c, w, db1) := processEngineSheet sheet.1 sheet.2 vesselID uploadedAt acc.2.2
    (setCount acc.1 "engines" c, acc.2.1 ++ w, db1)
  else if containsStr nameLower "fuel" then
    let (c, w, db1) := processFuelSheet sheet.1 sheet.2 vesselID uploadedAt acc.2.2
    (setCount acc.1 "fuel" c, acc.2.1 ++ w, db1)
  else if containsStr nameLower "generator" then
    let (c, w, db1) := processGeneratorSheet sheet.1 sheet.2 vesselID uploadedAt acc.2.2
    (setCount acc.1 "generators" c, acc.2.1 ++ w, db1)
  else if containsStr nameLower "cctv" then
    let (c, w, db1) := processCCTVSheet sheet.1 sheet.2 vesselID uploadedAt acc.2.2
    (setCount acc.1 "cctv" c, acc.2.1 ++ w, db1)
  else if containsStr nameLower "impact" || containsStr nameLower "vibration" then
    let (c, w, db1) := processImpactSheet sheet.1 sheet.2 vesselID uploadedAt acc.2.2
    (setCount acc.1 "impact" c, acc.2.1 ++ w, db1)
  else acc

/-- INSERT OR REPLACE into vessel_stream_latest. -/
def upsertLatest (db : DBState) (vesselID : Int) (stream : String) (ts : Timestamp) : DBState :=
  { db with streamLatest :=
      if db.streamLatest.any (fun e => e.1 == vesselID && e.2.1 == stream) then
        db.streamLatest.map (fun e =>
          if e.1 == vesselID && e.2.1 == stream then (vesselID, stream, ts) else e)
      else db.streamLatest ++ [(vesselID, stream, ts)] }

/-- updateStreamLatest (lines 809-819): upsert the reference timestamp for
every stream with a positive inserted count. -/
def updateStreamLatest (vesselID : Int) (rowsInserted : List (String × Nat))
    (ts : Timestamp) (db : DBState) : DBState :=
  rowsInserted.foldl
    (fun db1 e => if e.2 > 0 then upsertLatest db1 vesselID e.1 ts else db1) db

/-- ProcessFile (xlsx.go lines 29-123): hash the bytes, short-circuit with
"already_ingested" when an uploads row with this hash exists, resolve the
vessel, process the telemetry sheets, and update the latest-stream
pointers.  The upload-record INSERT of the Go source is commented out: no
uploads row is ever written and the response's upload id is the hard-coded
constant 1.  The workbook reader (excelize) is the parsing oracle
`parseXLSX`; none models the fatal error paths. -/
def ProcessFile (parseXLSX : List Nat → Option Workbook) (db : DBState)
    (fileData : List Nat) (filename imo vesselName : String)
    (periodStart : Option Timestamp) (now : Timestamp) :
    Option (IngestResponse × DBState) :=
  let fileHash := SHA256Hex fileData
  match db.uploads.find? (fun u => u.fileHash == fileHash) with
  | some u =>
    some ({ status := "already_ingested", uploadId := some u.id, vesselId := none,
            rowsInserted := [], warnings := [] }, db)
  | none =>
    match parseXLSX fileData with
    | none => none
    | some f =>
      let uploadedAt := periodStart.getD now
      match processShipInfo f imo vesselName uploadedAt db with
      | none => none
      | some (vesselID, locationCount, locationWarnings, db1) =>
        let uploadID : Int := 1
        let counts0 : List (String × Nat) :=
          if locationCount > 0 then [("location", locationCount)] else []
        let res := f.foldl (classifySheet vesselID uploadedAt) (counts0, locationWarnings, db1)
        let db3 := updateStreamLatest vesselID res.1 uploadedAt res.2.2
        some ({ status := "ingested", uploadId := some uploadID, vesselId := some vesselID,
                rowsInserted := res.1, warnings := res.2.1 }, db3)


/-- The location validator outcome for one ship-info row, as computed inside
processLocationFromShipInfo. -/
def locationWarnings (headers data : List String) (mapper : List (String × String)) :
    List String :=
  match locationParsed headers data mapper with
  | (la, lo, co, sp, _) => ValidateLocationData la lo co sp

/-! ## Digit and parsing lemmas -/

theorem digitChar_isDigit {d : Nat} (h : d < 10) : (digitChar d).isDigit = true := by
  interval_cases d <;> decide

theorem digitVal_digitChar {d : Nat} (h : d < 10) : digitVal (digitChar d) = d := by
  interval_cases d <;> decide

theorem digitChar_not_space {d : Nat} (h : d < 10) : isSpaceChar (digitChar d) = false := by
  interval_cases d <;> decide

theorem colon_not_digit : (':' : Char).isDigit = false := by decide

theorem getnum2_pad2 {n : Nat} (h : n ≤ 99) (rest : List Char) :
    getnum2 (pad2 n ++ rest) = some (n, rest) := by
  have h1 : n / 10 < 10 := by omega
  have h2 : n % 10 < 10 := Nat.mod_lt _ (by omega)
  simp only [pad2, List.cons_append, List.nil_append, getnum2,
    digitChar_isDigit h1, digitChar_isDigit h2, digitVal_digitChar h1, digitVal_digitChar h2]
  simp only [and_self, if_true, Option.some.injEq, Prod.mk.injEq, and_true]
  omega

theorem getnum12_pad2 {n : Nat} (h : n ≤ 99) (rest : List Char) :
    getnum12 (pad2 n ++ rest) = some (n, rest) := by
  have h1 : n / 10 < 10 := by omega
  have h2 : n % 10 < 10 := Nat.mod_lt _ (by omega)
  simp only [pad2, List.cons_append, List.nil_append, getnum12,
    digitChar_isDigit h1, digitChar_isDigit h2, digitVal_digitChar h1, digitVal_digitChar h2]
  simp only [if_true, Option.some.injEq, Prod.mk.injEq, and_true]
  omega

theorem getnum4_digits_colon {a : Nat} (ha : a ≤ 99) (rest : List Char) :
    getnum4 (pad2 a ++ ':' :: rest) = none := by
  cases rest with
  | nil => rfl
  | cons r rs =>
    simp [pad2, getnum4, colon_not_digit]

theorem parseWithLayout_year4_fail {toks : List LToken} {cs : List Char}
    (h : getnum4 cs = none) : parseWithLayout (LToken.year4 :: toks) cs = none := by
  simp [parseWithLayout, runLayout, h]

theorem dropWhile_eq_self_of_forall {p : Char → Bool} {l : List Char}
    (h : ∀ c ∈ l, p c = false) : l.dropWhile p = l := by
  cases l with
  | nil => rfl
  | cons a as => simp [List.dropWhile_cons, h a (by simp)]

theorem trimSpace_eq_self {l : List Char} (h : ∀ c ∈ l, isSpaceChar c = false) :
    trimSpace ⟨l⟩ = ⟨l⟩ := by
  unfold trimSpace
  rw [show (String.mk l).data = l from rfl,
    dropWhile_eq_self_of_forall h,
    dropWhile_eq_self_of_forall (fun c hc => h c (List.mem_reverse.mp hc)),
    List.reverse_reverse]

/-! ## Claim C9 -/

/-- C9: ParseTimestamp accepts time-only inputs.  A well-formed hh:mm:ss or
hh:mm string parses successfully (the date-bearing formats all fail on it,
the time-only formats succeed), yielding the Go parse defaults for the date:
January 1 of year 0; consequently a row whose timestamp cell is such a
time-only string resolves to that year-zero timestamp instead of falling
back to the ingestion's reference timestamp. -/
theorem parsetimestamp_time_only (h m s : Nat) (hh : h ≤ 23) (hm : m ≤ 59)
    (hs : s ≤ 59) (d : Timestamp) :
    ParseTimestamp ⟨pad2 h ++ (':' :: (pad2 m ++ (':' :: pad2 s)))⟩ = some ⟨0, 1, 1, h, m, s, 0⟩ ∧
    ParseTimestamp ⟨pad2 h ++ (':' :: pad2 m)⟩ = some ⟨0, 1, 1, h, m, 0, 0⟩ ∧
    resolveRowTS d ⟨pad2 h ++ (':' :: (pad2 m ++ (':' :: pad2 s)))⟩ = ⟨0, 1, 1, h, m, s, 0⟩ := by
  have hnospace1 : ∀ c ∈ pad2 h ++ (':' :: (pad2 m ++ (':' :: pad2 s))), isSpaceChar c = false := by
    intro c hc
    simp [pad2] at hc
    rcases hc with h1 | h1 | h1 | h1 | h1 | h1 | h1 | h1 <;> subst h1 <;>
      first
        | exact digitChar_not_space (by omega)
        | exact digitChar_not_space (Nat.mod_lt _ (by omega))
        | decide
  have hnospace2 : ∀ c ∈ pad2 h ++ (':' :: pad2 m), isSpaceChar c = false := by
    intro c hc
    simp [pad2] at hc
    rcases hc with h1 | h1 | h1 | h1 | h1 <;> subst h1 <;>
      first
        | exact digitChar_not_space (by omega)
        | exact digitChar_not_space (Nat.mod_lt _ (by omega))
        | decide
  have hne1 : (⟨pad2 h ++ (':' :: (pad2 m ++ (':' :: pad2 s)))⟩ : String) ≠ "" := by
    simp [String.ext_iff, pad2]
  have hne2 : (⟨pad2 h ++ (':' :: pad2 m)⟩ : String) ≠ "" := by
    simp [String.ext_iff, pad2]
  have h4a : getnum4 (pad2 h ++ (':' :: (pad2 m ++ (':' :: pad2 s)))) = none :=
    getnum4_digits_colon (by omega) _
  have h4b : getnum4 (pad2 h ++ (':' :: pad2 m)) = none :=
    getnum4_digits_colon (by omega) _
  have hrfcA : parseRFC3339 ⟨pad2 h ++ (':' :: (pad2 m ++ (':' :: pad2 s)))⟩ = none := by
    simp [parseRFC3339, rfc3339Toks, runLayout, h4a]
  have hrfcB : parseRFC3339 ⟨pad2 h ++ (':' :: pad2 m)⟩ = none := by
    simp [parseRFC3339, rfc3339Toks, runLayout, h4b]
  have e1 : getnum12 (pad2 h ++ (':' :: (pad2 m ++ (':' :: pad2 s))))
      = some (h, ':' :: (pad2 m ++ (':' :: pad2 s))) := getnum12_pad2 (by omega) _
  have e2 : getnum2 (pad2 m ++ (':' :: pad2 s)) = some (m, ':' :: pad2 s) :=
    getnum2_pad2 (by omega) _
  have e3 : getnum2 (pad2 s) = some (s, []) := by
    have := getnum2_pad2 (show s ≤ 99 by omega) ([])
    simpa using this
  have e4 : getnum12 (pad2 h ++ (':' :: pad2 m)) = some (h, ':' :: pad2 m) :=
    getnum12_pad2 (by omega) _
  have e5 : getnum2 (pad2 m) = some (m, []) := by
    have := getnum2_pad2 (show m ≤ 99 by omega) ([])
    simpa using this
  have hr1 : rangesOK ⟨0, 1, 1, h, m, s, 0⟩ = true := by
    simp [rangesOK, daysIn, isLeapYear, decide_eq_true_eq]
    omega
  have hr2 : rangesOK ⟨0, 1, 1, h, m, 0, 0⟩ = true := by
    simp [rangesOK, daysIn, isLeapYear, decide_eq_true_eq]
    omega
  have main1 : ParseTimestamp ⟨pad2 h ++ (':' :: (pad2 m ++ (':' :: pad2 s)))⟩
      = some ⟨0, 1, 1, h, m, s, 0⟩ := by
    rw [ParseTimestamp, if_neg hne1, trimSpace_eq_self hnospace1]
    simp only [hrfcA, tsLayouts, List.findSome?, parseWithLayout, runLayout, h4a,
      e1, e2, e3, Option.some_bind, Option.none_bind, parseDefaultTs, hr1]
    simp [hr1]
  have main2 : ParseTimestamp ⟨pad2 h ++ (':' :: pad2 m)⟩ = some ⟨0, 1, 1, h, m, 0, 0⟩ := by
    rw [ParseTimestamp, if_neg hne2, trimSpace_eq_self hnospace2]
    simp only [hrfcB, tsLayouts, List.findSome?, parseWithLayout, runLayout, h4b,
      e4, e5, Option.some_bind, Option.none_bind, parseDefaultTs, hr2]
    simp [hr2]
  exact ⟨main1, main2, by rw [resolveRowTS, main1]; rfl⟩

/-- Witness for C9 on the concrete time-only cell "13:30:25". -/
theorem parsetimestamp_time_only_witness :
    (⟨pad2 13 ++ (':' :: (pad2 30 ++ (':' :: pad2 25)))⟩ : String) = "13:30:25" ∧
    ParseTimestamp ⟨pad2 13 ++ (':' :: (pad2 30 ++ (':' :: pad2 25)))⟩
      = some ⟨0, 1, 1, 13, 30, 25, 0⟩ :=
  ⟨by decide,
   (parsetimestamp_time_only 13 30 25 (by decide) (by decide) (by decide)
      parseDefaultTs).1⟩

/-! ## Claim C4: cursor round-trip lemmas -/

theorem sextet_rt : ∀ n, n < 64 → decodeSextet (encodeSextet n) = some n := by decide

theorem sextet_ne_eq : ∀ n, n < 64 → encodeSextet n ≠ '=' := by decide

theorem b64_roundtrip (bs : List Nat) (hb : ∀ b ∈ bs, b < 256) :
    b64decode (b64encode bs) = some bs := by
  induction bs using b64encode.induct with
  | case1 => rfl
  | case2 x =>
    have hx : x < 256 := hb x (by simp)
    have h1 := sextet_rt (x / 4) (by omega)
    have h2 := sextet_rt (x % 4 * 16) (by omega)
    simp [b64encode, b64decode, h1, h2]
    omega
  | case3 x y =>
    have hx : x < 256 := hb x (by simp)
    have hy : y < 256 := hb y (by simp)
    have h1 := sextet_rt (x / 4) (by omega)
    have h2 := sextet_rt (x % 4 * 16 + y / 16) (by omega)
    have h3 := sextet_rt (y % 16 * 4) (by omega)
    have hc := sextet_ne_eq (y % 16 * 4) (by omega)
    simp [b64encode, b64decode, h1, h2, h3, hc]
    omega
  | case4 x y z rest ih =>
    have hx : x < 256 := hb x (by simp)
    have hy : y < 256 := hb y (by simp)
    have hz : z < 256 := hb z (by simp)
    have h1 := sextet_rt (x / 4) (by omega)
    have h2 := sextet_rt (x % 4 * 16 + y / 16) (by omega)
    have h3 := sextet_rt (y % 16 * 4 + z / 64) (by omega)
    have h4 := sextet_rt (z % 64) (by omega)
    have hc := sextet_ne_eq (y % 16 * 4 + z / 64) (by omega)
    have hd := sextet_ne_eq (z % 64) (by omega)
    have ihr := ih (fun b h => hb b (by simp [h]))
    simp [b64encode, b64decode, h1, h2, h3, h4, hc, hd, ihr]
    refine ⟨by omega, by omega, by omega⟩

theorem splitBar_ne_nil (l : List Char) : splitBar l ≠ [] := by
  cases l with
  | nil => simp [splitBar]
  | cons c rest =>
    rw [splitBar]
    cases h : splitBar rest with
    | nil => simp
    | cons p ps => by_cases hc : c = '|' <;> simp [hc]

theorem splitBar_no_bar {l : List Char} (h : ∀ c ∈ l, c ≠ '|') : splitBar l = [l] := by
  induction l with
  | nil => rfl
  | cons a as ih =>
    rw [splitBar, ih (fun c hc => h c (List.mem_cons_of_mem _ hc))]
    simp [h a (List.mem_cons_self _ _)]

theorem splitBar_append {a : List Char} (b : List Char) (ha : ∀ c ∈ a, c ≠ '|') :
    splitBar (a ++ '|' :: b) = a :: splitBar b := by
  induction a with
  | nil =>
    simp only [List.nil_append]
    rw [splitBar]
    cases h : splitBar b with
    | nil => exact absurd h (splitBar_ne_nil b)
    | cons p ps => simp
  | cons x xs ih =>
    simp only [List.cons_append]
    rw [splitBar, ih (fun c hc => ha c (List.mem_cons_of_mem _ hc))]
    simp [ha x (List.mem_cons_self _ _)]

theorem digitChar_toNat {d : Nat} (h : d < 10) : (digitChar d).toNat = 48 + d := by
  interval_cases d <;> decide

theorem ne_bar_of_toNat {c : Char} (h : c.toNat ≤ 123) : c ≠ '|' := by
  intro he
  subst he
  exact absurd h (by decide)

theorem natDigits_shape (n : Nat) : ∀ c ∈ natDigits n, ∃ d, d < 10 ∧ c = digitChar d := by
  induction n using Nat.strong_induction_on with
  | _ n ih =>
    by_cases h10 : n < 10
    · rw [natDigits, if_pos h10]
      intro c hc
      simp at hc
      exact ⟨n, h10, hc⟩
    · rw [natDigits, if_neg h10]
      intro c hc
      rcases List.mem_append.mp hc with h | h
      · exact ih (n / 10) (Nat.div_lt_self (by omega) (by omega)) c h
      · simp at h
        exact ⟨n % 10, Nat.mod_lt _ (by omega), h⟩

theorem natDigits_ne_nil (n : Nat) : natDigits n ≠ [] := by
  rw [natDigits]
  split <;> simp

theorem parseDigitsNat_natDigits (n : Nat) : parseDigitsNat (natDigits n) = n := by
  induction n using Nat.strong_induction_on with
  | _ n ih =>
    by_cases h10 : n < 10
    · rw [natDigits, if_pos h10]
      simp [parseDigitsNat, digitVal_digitChar h10]
    · rw [natDigits, if_neg h10]
      have hrec := ih (n / 10) (Nat.div_lt_self (by omega) (by omega))
      simp only [parseDigitsNat, List.foldl_append] at hrec ⊢
      rw [hrec, List.foldl_cons, List.foldl_nil, digitVal_digitChar (Nat.mod_lt _ (by omega))]
      omega

theorem digitChar_ne_sign {d : Nat} (h : d < 10) :
    digitChar d ≠ '-' ∧ digitChar d ≠ '+' := by
  interval_cases d <;> exact ⟨by decide, by decide⟩

theorem natDigits_all_digits (n : Nat) : (natDigits n).all Char.isDigit = true := by
  rw [List.all_eq_true]
  intro c hc
  obtain ⟨d, hd, rfl⟩ := natDigits_shape n c hc
  exact digitChar_isDigit hd

theorem parseIntStr_intToString (i : Int) (h1 : -(2 ^ 63) ≤ i) (h2 : i ≤ 2 ^ 63 - 1) :
    parseIntStr (intToString i) = some i := by
  by_cases hneg : i < 0
  · rw [intToString, if_pos hneg]
    show parseIntStr ⟨'-' :: natDigits i.natAbs⟩ = some i
    simp only [parseIntStr, List.head?_cons, List.tail_cons]
    simp [natDigits_ne_nil, natDigits_all_digits, parseDigitsNat_natDigits]
    rw [abs_of_neg hneg]
    omega
  · rw [intToString, if_neg hneg]
    obtain ⟨c0, rest, hcr⟩ : ∃ c0 rest, natDigits i.natAbs = c0 :: rest := by
      cases h : natDigits i.natAbs with
      | nil => exact absurd h (natDigits_ne_nil _)
      | cons a b => exact ⟨a, b, rfl⟩
    obtain ⟨d, hd, hcd⟩ := natDigits_shape i.natAbs c0 (by rw [hcr]; simp)
    have hsigns := digitChar_ne_sign hd
    have hm : c0 ≠ '-' := by rw [hcd]; exact hsigns.1
    have hp : c0 ≠ '+' := by rw [hcd]; exact hsigns.2
    show parseIntStr ⟨natDigits i.natAbs⟩ = some i
    simp only [parseIntStr, hcr, List.head?_cons]
    simp [hm, hp, ← hcr, natDigits_ne_nil, natDigits_all_digits, parseDigitsNat_natDigits]
    rw [abs_of_nonneg (show (0 : Int) ≤ i by omega)]
    omega

theorem getnum4_pad4 {n : Nat} (h : n ≤ 9999) (rest : List Char) :
    getnum4 (pad4 n ++ rest) = some (n, rest) := by
  have h1 : n / 1000 < 10 := by omega
  have h2 : n / 100 % 10 < 10 := Nat.mod_lt _ (by omega)
  have h3 : n / 10 % 10 < 10 := Nat.mod_lt _ (by omega)
  have h4 : n % 10 < 10 := Nat.mod_lt _ (by omega)
  simp only [pad4, List.cons_append, List.nil_append, getnum4,
    digitChar_isDigit h1, digitChar_isDigit h2, digitChar_isDigit h3, digitChar_isDigit h4,
    digitVal_digitChar h1, digitVal_digitChar h2, digitVal_digitChar h3, digitVal_digitChar h4]
  simp only [and_self, if_true, Option.some.injEq, Prod.mk.injEq, and_true]
  omega

theorem parseZoneStrict_formatZone {off : Int} (h1 : -1439 ≤ off) (h2 : off ≤ 1439) :
    parseZoneStrict (formatZone off) = some (off, []) := by
  rcases lt_trichotomy off 0 with hlt | heq | hgt
  · rw [formatZone, if_neg (by omega), if_neg (by omega)]
    have e1 : getnum2 (pad2 (off.natAbs / 60) ++ (':' :: pad2 (off.natAbs % 60)))
        = some (off.natAbs / 60, ':' :: pad2 (off.natAbs % 60)) :=
      getnum2_pad2 (by omega) _
    have e2 : getnum2 (pad2 (off.natAbs % 60)) = some (off.natAbs % 60, []) := by
      simpa using getnum2_pad2 (show off.natAbs % 60 ≤ 99 by omega) ([])
    simp [parseZoneStrict, e1, e2]
    refine ⟨⟨by omega, by omega⟩, ?_⟩
    rw [abs_of_neg hlt]
    omega
  · subst heq
    rfl
  · rw [formatZone, if_neg (by omega), if_pos hgt]
    have e1 : getnum2 (pad2 (off.natAbs / 60) ++ (':' :: pad2 (off.natAbs % 60)))
        = some (off.natAbs / 60, ':' :: pad2 (off.natAbs % 60)) :=
      getnum2_pad2 (by omega) _
    have e2 : getnum2 (pad2 (off.natAbs % 60)) = some (off.natAbs % 60, []) := by
      simpa using getnum2_pad2 (show off.natAbs % 60 ≤ 99 by omega) ([])
    simp [parseZoneStrict, e1, e2]
    refine ⟨⟨by omega, by omega⟩, ?_⟩
    rw [abs_of_pos hgt]
    omega

theorem daysIn_le_31 (y m : Nat) : daysIn y m ≤ 31 := by
  rw [daysIn]
  split_ifs <;> omega

theorem skipFrac_formatZone (off : Int) : skipFrac (formatZone off) = some (formatZone off) := by
  rw [formatZone]
  split_ifs <;> rfl

theorem parseRFC3339_formatRFC3339 {t : Timestamp} (hv : validTimestamp t) :
    parseRFC3339 (formatRFC3339 t) = some t := by
  obtain ⟨y, mo, dy, hr, mi, se, off⟩ := t
  simp only [validTimestamp] at hv
  obtain ⟨hy, hmo1, hmo2, hd1, hd2, hhr, hmi, hse, ho1, ho2⟩ := hv
  have e0 := getnum4_pad4 hy
    ('-' :: (pad2 mo ++ ('-' :: (pad2 dy ++ ('T' :: (pad2 hr ++ (':' :: (pad2 mi ++
      (':' :: (pad2 se ++ formatZone off))))))))))
  have e1 := getnum2_pad2 (show mo ≤ 99 by omega)
    ('-' :: (pad2 dy ++ ('T' :: (pad2 hr ++ (':' :: (pad2 mi ++ (':' :: (pad2 se ++ formatZone off))))))))
  have e2 := getnum2_pad2 (show dy ≤ 99 from le_trans hd2 (le_trans (daysIn_le_31 y mo) (by omega)))
    ('T' :: (pad2 hr ++ (':' :: (pad2 mi ++ (':' :: (pad2 se ++ formatZone off))))))
  have e3 := getnum2_pad2 (show hr ≤ 99 by omega)
    (':' :: (pad2 mi ++ (':' :: (pad2 se ++ formatZone off))))
  have e4 := getnum2_pad2 (show mi ≤ 99 by omega) (':' :: (pad2 se ++ formatZone off))
  have e5 := getnum2_pad2 (show se ≤ 99 by omega) (formatZone off)
  have hrok : rangesOK ⟨y, mo, dy, hr, mi, se, 0⟩ = true := by
    simp only [rangesOK, Bool.and_eq_true, decide_eq_true_eq]
    exact ⟨⟨⟨⟨⟨⟨hmo1, hmo2⟩, hd1⟩, hd2⟩, hhr⟩, hmi⟩, hse⟩
  rw [parseRFC3339]
  simp only [formatRFC3339, rfc3339Toks, runLayout, e0, e1, e2, e3, e4, e5,
    Option.some_bind, skipFrac_formatZone, parseZoneStrict_formatZone ho1 ho2,
    parseDefaultTs, hrok, if_true]

theorem pad2_chars {n : Nat} (h : n ≤ 99) : ∀ c ∈ pad2 n, 48 ≤ c.toNat ∧ c.toNat ≤ 57 := by
  intro c hc
  simp [pad2] at hc
  rcases hc with rfl | rfl
  · rw [digitChar_toNat (by omega)]; omega
  · rw [digitChar_toNat (Nat.mod_lt _ (by omega))]; omega

theorem pad4_chars {n : Nat} (h : n ≤ 9999) : ∀ c ∈ pad4 n, 48 ≤ c.toNat ∧ c.toNat ≤ 57 := by
  intro c hc
  simp [pad4] at hc
  rcases hc with rfl | rfl | rfl | rfl
  · rw [digitChar_toNat (by omega)]; omega
  · rw [digitChar_toNat (Nat.mod_lt _ (by omega))]; omega
  · rw [digitChar_toNat (Nat.mod_lt _ (by omega))]; omega
  · rw [digitChar_toNat (Nat.mod_lt _ (by omega))]; omega

theorem cursorSafe_digit {c : Char} (h1 : 48 ≤ c.toNat) (h2 : c.toNat ≤ 57) : cursorSafe c :=
  ⟨by omega, ne_bar_of_toNat (by omega)⟩

theorem formatZone_chars {off : Int} (h1 : -1439 ≤ off) (h2 : off ≤ 1439) :
    ∀ c ∈ formatZone off, cursorSafe c := by
  intro c hc
  rw [formatZone] at hc
  split_ifs at hc
  · simp at hc; subst hc; exact ⟨by decide, by decide⟩
  · simp at hc
    rcases hc with rfl | hc | rfl | hc
    · exact ⟨by decide, by decide⟩
    · obtain ⟨ha, hb⟩ := pad2_chars (show off.natAbs / 60 ≤ 99 by omega) c hc
      exact cursorSafe_digit ha hb
    · exact ⟨by decide, by decide⟩
    · obtain ⟨ha, hb⟩ := pad2_chars (show off.natAbs % 60 ≤ 99 by omega) c hc
      exact cursorSafe_digit ha hb
  · simp at hc
    rcases hc with rfl | hc | rfl | hc
    · exact ⟨by decide, by decide⟩
    · obtain ⟨ha, hb⟩ := pad2_chars (show off.natAbs / 60 ≤ 99 by omega) c hc
      exact cursorSafe_digit ha hb
    · exact ⟨by decide, by decide⟩
    · obtain ⟨ha, hb⟩ := pad2_chars (show off.natAbs % 60 ≤ 99 by omega) c hc
      exact cursorSafe_digit ha hb

theorem formatRFC3339_chars {t : Timestamp} (hv : validTimestamp t) :
    ∀ c ∈ (formatRFC3339 t).data, cursorSafe c := by
  obtain ⟨y, mo, dy, hr, mi, se, off⟩ := t
  simp only [validTimestamp] at hv
  obtain ⟨hy, hmo1, hmo2, hd1, hd2, hhr, hmi, hse, ho1, ho2⟩ := hv
  intro c hc
  simp only [formatRFC3339, List.mem_append, List.mem_cons] at hc
  rcases hc with hc | rfl | hc | rfl | hc | rfl | hc | rfl | hc | rfl | hc | hc
  · obtain ⟨ha, hb⟩ := pad4_chars hy c hc; exact cursorSafe_digit ha hb
  · exact ⟨by decide, by decide⟩
  · obtain ⟨ha, hb⟩ := pad2_chars (by omega) c hc; exact cursorSafe_digit ha hb
  · exact ⟨by decide, by decide⟩
  · obtain ⟨ha, hb⟩ := pad2_chars
      (show dy ≤ 99 from le_trans hd2 (le_trans (daysIn_le_31 y mo) (by omega))) c hc
    exact cursorSafe_digit ha hb
  · exact ⟨by decide, by decide⟩
  · obtain ⟨ha, hb⟩ := pad2_chars (by omega) c hc; exact cursorSafe_digit ha hb
  · exact ⟨by decide, by decide⟩
  · obtain ⟨ha, hb⟩ := pad2_chars (by omega) c hc; exact cursorSafe_digit ha hb
  · exact ⟨by decide, by decide⟩
  · obtain ⟨ha, hb⟩ := pad2_chars (by omega) c hc; exact cursorSafe_digit ha hb
  · exact formatZone_chars ho1 ho2 c hc

theorem intToString_chars (i : Int) : ∀ c ∈ (intToString i).data, cursorSafe c := by
  intro c hc
  rw [intToString] at hc
  split_ifs at hc
  · rcases List.mem_cons.mp hc with rfl | hc
    · exact ⟨by decide, by decide⟩
    · obtain ⟨d, hd, rfl⟩ := natDigits_shape _ c hc
      exact cursorSafe_digit (by rw [digitChar_toNat hd]; omega) (by rw [digitChar_toNat hd]; omega)
  · obtain ⟨d, hd, rfl⟩ := natDigits_shape _ c hc
    exact cursorSafe_digit (by rw [digitChar_toNat hd]; omega) (by rw [digitChar_toNat hd]; omega)

theorem b64encode_ne_nil {bs : List Nat} (h : bs ≠ []) : b64encode bs ≠ [] := by
  match bs with
  | [] => exact absurd rfl h
  | [x] => simp [b64encode]
  | [x, y] => simp [b64encode]
  | x :: y :: z :: rest => simp [b64encode]

theorem map_ofNat_toNat (l : List Char) : List.map (Char.ofNat ∘ Char.toNat) l = l := by
  induction l with
  | nil => rfl
  | cons a as ih => simp [ih, Char.ofNat_toNat]

theorem decode_encode_cursor {ts : Timestamp} {id : Int} (hts : validTimestamp ts)
    (hlo : -(2 ^ 63) ≤ id) (hhi : id ≤ 2 ^ 63 - 1) :
    DecodeCursor (EncodeCursor ts id) = some (ts, id) := by
  have hdata : (formatRFC3339 ts ++ "|" ++ intToString id).data
      = (formatRFC3339 ts).data ++ '|' :: (intToString id).data := by
    rw [String.data_append, String.data_append]
    simp
  have hFne : (formatRFC3339 ts).data ≠ [] := by
    rw [formatRFC3339]
    simp [pad4]
  have hsafe : ∀ c ∈ (formatRFC3339 ts ++ "|" ++ intToString id).data, c.toNat < 256 := by
    rw [hdata]
    intro c hc
    rcases List.mem_append.mp hc with hc | hc
    · exact (formatRFC3339_chars hts c hc).1
    · rcases List.mem_cons.mp hc with rfl | hc
      · decide
      · exact (intToString_chars id c hc).1
  have hbytes : ∀ b ∈ stringToBytes (formatRFC3339 ts ++ "|" ++ intToString id), b < 256 := by
    intro b hb
    obtain ⟨c, hc, rfl⟩ := List.mem_map.mp hb
    exact hsafe c hc
  have hne : EncodeCursor ts id ≠ "" := by
    rw [EncodeCursor]
    intro he
    apply b64encode_ne_nil (show stringToBytes (formatRFC3339 ts ++ "|" ++ intToString id) ≠ [] by
      rw [stringToBytes, hdata]
      simp [hFne])
    exact congrArg String.data he
  have hchars : bytesToChars (stringToBytes (formatRFC3339 ts ++ "|" ++ intToString id))
      = (formatRFC3339 ts).data ++ '|' :: (intToString id).data := by
    rw [bytesToChars, stringToBytes, List.map_map, hdata]
    simp only [List.map_append, List.map_cons, map_ofNat_toNat]
    simp [show Char.ofNat (Char.toNat '|') = '|' from rfl]
  rw [DecodeCursor, if_neg hne]
  simp only [show (EncodeCursor ts id).data
      = b64encode (stringToBytes (formatRFC3339 ts ++ "|" ++ intToString id)) from rfl,
    b64_roundtrip _ hbytes, hchars,
    splitBar_append _ (fun c hc => (formatRFC3339_chars hts c hc).2),
    splitBar_no_bar (fun c hc => (intToString_chars id c hc).2),
    show (⟨(formatRFC3339 ts).data⟩ : String) = formatRFC3339 ts from rfl,
    show (⟨(intToString id).data⟩ : String) = intToString id from rfl,
    parseRFC3339_formatRFC3339 hts, parseIntStr_intToString id hlo hhi]

/-- C4: DecodeCursor inverts EncodeCursor on every valid timestamp/id pair
(in-range calendar fields, four-digit year, zone within the hh:mm range,
64-bit id); decoding the empty string yields the zero time and id 0 with no
error; and decoding a malformed cursor (base64 failure, wrong part count,
bad timestamp, or bad id) yields an error. -/
theorem cursor_roundtrip_empty_and_malformed :
    (∀ (ts : Timestamp) (id : Int), validTimestamp ts →
      -(2 ^ 63) ≤ id → id ≤ 2 ^ 63 - 1 →
      DecodeCursor (EncodeCursor ts id) = some (ts, id)) ∧
    DecodeCursor "" = some (zeroTime, 0) ∧
    (∀ s : String, s ≠ "" → malformedCursor s → DecodeCursor s = none) := by
  refine ⟨fun ts id hts hlo hhi => decode_encode_cursor hts hlo hhi, rfl, ?_⟩
  intro s hs hm
  rw [DecodeCursor, if_neg hs]
  rw [malformedCursor] at hm
  cases hb : b64decode s.data with
  | none => simp [hb]
  | some bytes =>
    simp only [hb] at hm ⊢
    cases hsp : splitBar (bytesToChars bytes) with
    | nil => simp [hsp]
    | cons p1 t1 =>
      cases t1 with
      | nil => simp [hsp]
      | cons p2 t2 =>
        cases t2 with
        | nil =>
          simp only [hsp] at hm ⊢
          rcases hm with hm | hm
          · simp [hm]
          · cases hts : parseRFC3339 ⟨p1⟩ with
            | none => simp [hts]
            | some t => simp [hts, hm]
        | cons p3 t3 => simp [hsp]

/-- Witness for C4 at a concrete timestamp, id 42, and the non-base64 string made of percent signs. -/
theorem cursor_roundtrip_witness :
    validTimestamp ⟨2025, 8, 8, 10, 0, 0, 0⟩ ∧
    DecodeCursor (EncodeCursor ⟨2025, 8, 8, 10, 0, 0, 0⟩ 42)
      = some (⟨2025, 8, 8, 10, 0, 0, 0⟩, 42) ∧
    (("%%%%" : String) ≠ "" ∧ malformedCursor "%%%%") ∧
    DecodeCursor "%%%%" = none :=
  ⟨by decide,
   cursor_roundtrip_empty_and_malformed.1 ⟨2025, 8, 8, 10, 0, 0, 0⟩ 42
     (by decide) (by decide) (by decide),
   ⟨by decide, by rw [malformedCursor]; exact trivial⟩,
   cursor_roundtrip_empty_and_malformed.2.2 "%%%%" (by decide)
     (by rw [malformedCursor]; exact trivial)⟩

/-! ## Claim C3 -/

/-- C3: HashRow is a deterministic pure function — the same inputs always
yield the same output — and permuting the key list does not change the
output, because the keys are sorted before joining. -/
theorem hashrow_deterministic_and_permutation_invariant
    (v : Int) (ts : Timestamp) (stream : String) (keys keys' : List String)
    (hperm : keys.Perm keys') :
    HashRow v ts stream keys = HashRow v ts stream keys ∧
    HashRow v ts stream keys = HashRow v ts stream keys' := by
  refine ⟨rfl, ?_⟩
  have hsort : List.insertionSort (· ≤ ·) keys = List.insertionSort (· ≤ ·) keys' :=
    List.eq_of_perm_of_sorted
      ((List.perm_insertionSort _ keys).trans
        (hperm.trans (List.perm_insertionSort _ keys').symm))
      (List.sorted_insertionSort _ keys)
      (List.sorted_insertionSort _ keys')
  simp only [HashRow, hsort]

/-- Witness for C3 at a concrete permuted key list. -/
theorem hashrow_permutation_invariant_witness :
    (["engine_no:1", "rpm:1500"] : List String).Perm ["rpm:1500", "engine_no:1"] ∧
    HashRow 123 ⟨2025, 8, 8, 10, 0, 0, 0⟩ "engines" ["engine_no:1", "rpm:1500"] =
      HashRow 123 ⟨2025, 8, 8, 10, 0, 0, 0⟩ "engines" ["rpm:1500", "engine_no:1"] :=
  ⟨by decide,
   (hashrow_deterministic_and_permutation_invariant 123 ⟨2025, 8, 8, 10, 0, 0, 0⟩
      "engines" ["engine_no:1", "rpm:1500"] ["rpm:1500", "engine_no:1"] (by decide)).2⟩


/-! ## Claims C8 and C10 -/

/-! ## Claims C8 and C10 -/

/-- C8: validator range boundaries are inclusive.  The fuel-level warning of
ValidateFuelData fires exactly when the level is strictly below 0 or strictly
above 100 (so 0 and 100 pass), and the frequency warning of
ValidateGeneratorData fires exactly when the frequency is strictly below 45 or
strictly above 70 (so 45 and 70 pass), whatever the other fields hold. -/
theorem validator_boundaries_inclusive :
    (∀ (x : ℚ) (v t : Option ℚ),
      "invalid fuel level percentage" ∈ ValidateFuelData (some x) v t ↔ (x < 0 ∨ x > 100)) ∧
    (∀ (x : ℚ) (l v fr : Option ℚ),
      "frequency out of range (45-70 Hz)" ∈ ValidateGeneratorData l v (some x) fr
        ↔ (x < 45 ∨ x > 70)) := by
  constructor
  · intro x v t
    rcases v with _ | vv
    · by_cases hx : x < 0 ∨ x > 100 <;> simp [ValidateFuelData, hx]
    · by_cases hx : x < 0 ∨ x > 100 <;> by_cases hv : vv < 0 <;>
        simp [ValidateFuelData, hx, hv]
  · intro x l v fr
    rcases l with _ | lv <;> rcases v with _ | vv <;> rcases fr with _ | frv <;>
      by_cases hx : x < 45 ∨ x > 70 <;>
      first
        | (by_cases hl : lv < 0 <;> by_cases hv : vv < 0 <;> by_cases hf : frv < 0 <;>
            simp [ValidateGeneratorData, hx, hl, hv, hf])
        | (by_cases hl : lv < 0 <;> by_cases hv : vv < 0 <;>
            simp [ValidateGeneratorData, hx, hl, hv])
        | (by_cases hl : lv < 0 <;> by_cases hf : frv < 0 <;>
            simp [ValidateGeneratorData, hx, hl, hf])
        | (by_cases hv : vv < 0 <;> by_cases hf : frv < 0 <;>
            simp [ValidateGeneratorData, hx, hv, hf])
        | (by_cases hl : lv < 0 <;> simp [ValidateGeneratorData, hx, hl])
        | (by_cases hv : vv < 0 <;> simp [ValidateGeneratorData, hx, hv])
        | (by_cases hf : frv < 0 <;> simp [ValidateGeneratorData, hx, hf])
        | simp [ValidateGeneratorData, hx]

/-- C10: every field validator returns no warning when all of its arguments
are absent, so a row in which nothing could be parsed is never skipped for
validation reasons. -/
theorem validators_vacuous_on_absent :
    ValidateEngineData none none none = [] ∧
    ValidateFuelData none none none = [] ∧
    ValidateGeneratorData none none none none = [] ∧
    ValidateLocationData none none none none = [] :=
  ⟨rfl, rfl, rfl, rfl⟩

/-! ## Ingestion-level lemmas and claims C1, C2, C5, C6, C7 -/


theorem foldl_preserve {α β γ : Type} (g : β → γ) (step : β → α → β)
    (hstep : ∀ acc a, g (step acc a) = g acc) :
    ∀ (l : List α) (acc : β), g (l.foldl step acc) = g acc := by
  intro l
  induction l with
  | nil => intro acc; rfl
  | cons x xs ih => intro acc; rw [List.foldl_cons, ih, hstep]

theorem insertIgnoreEngine_uploads (db : DBState) (r : EngineReading) :
    (insertIgnoreEngine db r).uploads = db.uploads := by
  rw [insertIgnoreEngine]; split <;> rfl

theorem insertIgnoreFuel_uploads (db : DBState) (r : FuelReading) :
    (insertIgnoreFuel db r).uploads = db.uploads := by
  rw [insertIgnoreFuel]; split <;> rfl

theorem insertIgnoreGenerator_uploads (db : DBState) (r : GeneratorReading) :
    (insertIgnoreGenerator db r).uploads = db.uploads := by
  rw [insertIgnoreGenerator]; split <;> rfl

theorem insertIgnoreCCTV_uploads (db : DBState) (r : CCTVReading) :
    (insertIgnoreCCTV db r).uploads = db.uploads := by
  rw [insertIgnoreCCTV]; split <;> rfl

theorem insertIgnoreImpact_uploads (db : DBState) (r : ImpactReading) :
    (insertIgnoreImpact db r).uploads = db.uploads := by
  rw [insertIgnoreImpact]; split <;> rfl

theorem insertIgnoreLocation_uploads (db : DBState) (r : LocationReading) :
    (insertIgnoreLocation db r).uploads = db.uploads := by
  rw [insertIgnoreLocation]; split <;> rfl

theorem processEngineSheet_uploads (sheetName : String) (rows : List (List String))
    (vesselID : Int) (defaultTS : Timestamp) (db : DBState) :
    (processEngineSheet sheetName rows vesselID defaultTS db).2.2.uploads = db.uploads := by
  rw [processEngineSheet.eq_def]
  cases rows with
  | nil => rfl
  | cons headers dataRows =>
    by_cases hd : dataRows = []
    · simp only [hd]; rfl
    · simp only [hd, if_neg, if_false]
      refine foldl_preserve (fun (acc : Nat × List String × DBState) => acc.2.2.uploads) _ ?_ _ _
      intro acc p
      rcases hpr : processEngineRow _ _ _ _ _ _ _ _ _ _ _ _ with ⟨o, w⟩
      cases o <;> simp [hpr, insertIgnoreEngine_uploads]

theorem processFuelSheet_uploads (sheetName : String) (rows : List (List String))
    (vesselID : Int) (defaultTS : Timestamp) (db : DBState) :
    (processFuelSheet sheetName rows vesselID defaultTS db).2.2.uploads = db.uploads := by
  rw [processFuelSheet.eq_def]
  cases rows with
  | nil => rfl
  | cons headers dataRows =>
    by_cases hd : dataRows = []
    · simp only [hd]; rfl
    · simp only [hd, if_neg, if_false]
      refine foldl_preserve (fun (acc : Nat × List String × DBState) => acc.2.2.uploads) _ ?_ _ _
      intro acc p
      rcases hpr : processFuelRow _ _ _ _ _ _ _ _ _ _ with ⟨o, w⟩
      cases o <;> simp [hpr, insertIgnoreFuel_uploads]

theorem processGeneratorSheet_uploads (sheetName : String) (rows : List (List String))
    (vesselID : Int) (defaultTS : Timestamp) (db : DBState) :
    (processGeneratorSheet sheetName rows vesselID defaultTS db).2.2.uploads = db.uploads := by
  rw [processGeneratorSheet.eq_def]
  cases rows with
  | nil => rfl
  | cons headers dataRows =>
    by_cases hd : dataRows = []
    · simp only [hd]; rfl
    · simp only [hd, if_neg, if_false]
      refine foldl_preserve (fun (acc : Nat × List String × DBState) => acc.2.2.uploads) _ ?_ _ _
      intro acc p
      rcases hpr : processGeneratorRow _ _ _ _ _ _ _ _ _ _ _ _ with ⟨o, w⟩
      cases o <;> simp [hpr, insertIgnoreGenerator_uploads]

theorem processCCTVSheet_uploads (sheetName : String) (rows : List (List String))
    (vesselID : Int) (defaultTS : Timestamp) (db : DBState) :
    (processCCTVSheet sheetName rows vesselID defaultTS db).2.2.uploads = db.uploads := by
  rw [processCCTVSheet.eq_def]
  cases rows with
  | nil => rfl
  | cons headers dataRows =>
    by_cases hd : dataRows = []
    · simp only [hd]; rfl
    · simp only [hd, if_neg, if_false]
      refine foldl_preserve (fun (acc : Nat × List String × DBState) => acc.2.2.uploads) _ ?_ _ _
      intro acc cells
      simp [insertIgnoreCCTV_uploads]

theorem processImpactSheet_uploads (sheetName : String) (rows : List (List String))
    (vesselID : Int) (defaultTS : Timestamp) (db : DBState) :
    (processImpactSheet sheetName rows vesselID defaultTS db).2.2.uploads = db.uploads := by
  rw [processImpactSheet.eq_def]
  cases rows with
  | nil => rfl
  | cons headers dataRows =>
    by_cases hd : dataRows = []
    · simp only [hd]; rfl
    · simp only [hd, if_neg, if_false]
      refine foldl_preserve (fun (acc : Nat × List String × DBState) => acc.2.2.uploads) _ ?_ _ _
      intro acc cells
      simp [insertIgnoreImpact_uploads]

theorem processLocationFromShipInfo_uploads (headers data : List String) (vesselID : Int)
    (defaultTS : Timestamp) (mapper : List (String × String)) (db : DBState) :
    (processLocationFromShipInfo headers data vesselID defaultTS mapper db).2.2.uploads
      = db.uploads := by
  rcases hp : locationParsed headers data mapper with ⟨la, lo, co, sp, st⟩
  simp only [processLocationFromShipInfo, hp]
  split_ifs <;> simp [insertIgnoreLocation_uploads]

theorem insertVessel_uploads (db : DBState) (imo name flag vtype : Option String) :
    (insertVessel db imo name flag vtype).2.uploads = db.uploads := rfl

theorem vesselFromParams_uploads (providedIMO vesselName : String) (db : DBState)
    (vid : Int) (cnt : Nat) (ws : List String) (db' : DBState)
    (h : vesselFromParams providedIMO vesselName db = some (vid, cnt, ws, db')) :
    db'.uploads = db.uploads := by
  rw [vesselFromParams] at h
  split_ifs at h <;>
    simp only [Option.some.injEq, Prod.mk.injEq, reduceCtorEq] at h <;>
    obtain ⟨-, -, -, h4⟩ := h <;>
    rw [← h4] <;>
    exact insertVessel_uploads _ _ _ _ _

theorem processShipInfo_uploads (f : Workbook) (providedIMO vesselName : String)
    (uploadedAt : Timestamp) (db : DBState)
    (vid : Int) (cnt : Nat) (ws : List String) (db' : DBState)
    (h : processShipInfo f providedIMO vesselName uploadedAt db = some (vid, cnt, ws, db')) :
    db'.uploads = db.uploads := by
  rw [processShipInfo] at h
  rcases hfind : f.find? (fun s =>
      containsStr (toLowerStr s.1) "ship" && containsStr (toLowerStr s.1) "info") with _ | sheet
  · simp only [hfind] at h
    exact vesselFromParams_uploads _ _ _ _ _ _ _ h
  · simp only [hfind] at h
    rcases hrows : sheet.2 with _ | ⟨headers, _ | ⟨data, rest⟩⟩
    · simp only [hrows] at h
      exact vesselFromParams_uploads _ _ _ _ _ _ _ h
    · simp only [hrows] at h
      exact vesselFromParams_uploads _ _ _ _ _ _ _ h
    · simp only [hrows] at h
      split at h
      · split at h
        · exact absurd h (by simp)
        · simp only [Option.some.injEq, Prod.mk.injEq] at h
          obtain ⟨-, -, -, h4⟩ := h
          rw [← h4, processLocationFromShipInfo_uploads]
      · split at h
        · exact absurd h (by simp)
        · simp only [Option.some.injEq, Prod.mk.injEq] at h
          obtain ⟨-, -, -, h4⟩ := h
          rw [← h4, processLocationFromShipInfo_uploads, insertVessel_uploads]

theorem classifySheet_uploads (vesselID : Int) (uploadedAt : Timestamp)
    (acc : List (String × Nat) × List String × DBState) (sheet : String × List (List String)) :
    (classifySheet vesselID uploadedAt acc sheet).2.2.uploads = acc.2.2.uploads := by
  rw [classifySheet]
  split_ifs <;>
    simp [processEngineSheet_uploads, processFuelSheet_uploads, processGeneratorSheet_uploads,
      processCCTVSheet_uploads, processImpactSheet_uploads]

theorem upsertLatest_uploads (db : DBState) (vesselID : Int) (stream : String) (ts : Timestamp) :
    (upsertLatest db vesselID stream ts).uploads = db.uploads := rfl

theorem updateStreamLatest_uploads (vesselID : Int) (rowsInserted : List (String × Nat))
    (ts : Timestamp) (db : DBState) :
    (updateStreamLatest vesselID rowsInserted ts db).uploads = db.uploads := by
  refine foldl_preserve (fun (db1 : DBState) => db1.uploads) _ ?_ _ _
  intro db1 e
  split <;> simp [upsertLatest_uploads]

theorem ProcessFile_status_and_uploads (parseXLSX : List Nat → Option Workbook) (db : DBState)
    (fileData : List Nat) (filename imo vesselName : String)
    (periodStart : Option Timestamp) (now : Timestamp)
    (r : IngestResponse) (db' : DBState)
    (h0 : db.uploads = [])
    (h : ProcessFile parseXLSX db fileData filename imo vesselName periodStart now
      = some (r, db')) :
    db'.uploads = [] ∧ r.status = "ingested" := by
  rw [ProcessFile, h0] at h
  simp only [List.find?_nil] at h
  rcases hx : parseXLSX fileData with _ | f
  · rw [hx] at h
    exact absurd h (by simp)
  · simp only [hx] at h
    rcases hsi : processShipInfo f imo vesselName (periodStart.getD now) db
      with _ | ⟨vid, cnt, ws, db1⟩
    · simp only [hsi] at h
      exact absurd h (by simp)
    · simp only [hsi] at h
      obtain ⟨hr, hdb⟩ := Prod.mk.inj (Option.some.inj h)
      have hfold := foldl_preserve
        (fun (acc : List (String × Nat) × List String × DBState) => acc.2.2.uploads)
        (classifySheet vid (periodStart.getD now))
        (fun acc s => classifySheet_uploads vid (periodStart.getD now) acc s) f
        ((if cnt > 0 then [("location", cnt)] else []), ws, db1)
      constructor
      · rw [← hdb, updateStreamLatest_uploads, hfold,
          processShipInfo_uploads _ _ _ _ _ _ _ _ _ hsi, h0]
      · rw [← hr]

/-- C1: the spec claims that ingesting the same bytes twice creates exactly one
Upload row and that the second call returns status "already_ingested" with the
first upload id.  The code never inserts an uploads row: the INSERT into
uploads is commented out and the upload id is hard-coded to 1, so the
duplicate-file check can never fire.  Starting from a database with no upload
rows, two successive ingestions of the same bytes both leave the uploads table
empty and both return status "ingested", never "already_ingested". -/
theorem ingest_twice_no_upload_row
    (parseXLSX : List Nat → Option Workbook) (db : DBState)
    (fileData : List Nat) (filename imo vesselName : String)
    (periodStart : Option Timestamp) (now : Timestamp)
    (r1 r2 : IngestResponse) (db1 db2 : DBState)
    (h0 : db.uploads = [])
    (h1 : ProcessFile parseXLSX db fileData filename imo vesselName periodStart now
      = some (r1, db1))
    (h2 : ProcessFile parseXLSX db1 fileData filename imo vesselName periodStart now
      = some (r2, db2)) :
    db1.uploads = [] ∧ db2.uploads = [] ∧ r1.status = "ingested" ∧
    r2.status = "ingested" ∧ r2.status ≠ "already_ingested" := by
  obtain ⟨ha, hb⟩ := ProcessFile_status_and_uploads parseXLSX db fileData filename imo
    vesselName periodStart now r1 db1 h0 h1
  obtain ⟨hc, hd⟩ := ProcessFile_status_and_uploads parseXLSX db1 fileData filename imo
    vesselName periodStart now r2 db2 ha h2
  refine ⟨ha, hc, hb, hd, ?_⟩
  rw [hd]
  decide

theorem ingest_twice_no_upload_row_witness :
    DBState.empty.uploads = [] ∧
    ProcessFile (fun _ => some []) DBState.empty [] "f.xlsx" "9811000" "" none
        ⟨2025, 8, 8, 10, 0, 0, 0⟩
      = some (⟨"ingested", some 1, some 1, [], []⟩,
        ⟨[⟨1, some "9811000", some "Vessel-9811000", none, none⟩], [], [], [], [], [], [], [], []⟩) ∧
    ProcessFile (fun _ => some [])
        ⟨[⟨1, some "9811000", some "Vessel-9811000", none, none⟩], [], [], [], [], [], [], [], []⟩
        [] "f.xlsx" "9811000" "" none ⟨2025, 8, 8, 10, 0, 0, 0⟩
      = some (⟨"ingested", some 1, some 2, [], []⟩,
        ⟨[⟨1, some "9811000", some "Vessel-9811000", none, none⟩,
          ⟨2, some "9811000", some "Vessel-9811000", none, none⟩],
          [], [], [], [], [], [], [], []⟩) ∧
    (⟨[⟨1, some "9811000", some "Vessel-9811000", none, none⟩,
       ⟨2, some "9811000", some "Vessel-9811000", none, none⟩],
       [], [], [], [], [], [], [], []⟩ : DBState).uploads = [] ∧
    ("ingested" : String) ≠ "already_ingested" := by
  have h1 : ProcessFile (fun _ => some []) DBState.empty [] "f.xlsx" "9811000" "" none
      ⟨2025, 8, 8, 10, 0, 0, 0⟩
      = some (⟨"ingested", some 1, some 1, [], []⟩,
        ⟨[⟨1, some "9811000", some "Vessel-9811000", none, none⟩],
          [], [], [], [], [], [], [], []⟩) := by decide
  have h2 : ProcessFile (fun _ => some [])
      ⟨[⟨1, some "9811000", some "Vessel-9811000", none, none⟩], [], [], [], [], [], [], [], []⟩
      [] "f.xlsx" "9811000" "" none ⟨2025, 8, 8, 10, 0, 0, 0⟩
      = some (⟨"ingested", some 1, some 2, [], []⟩,
        ⟨[⟨1, some "9811000", some "Vessel-9811000", none, none⟩,
          ⟨2, some "9811000", some "Vessel-9811000", none, none⟩],
          [], [], [], [], [], [], [], []⟩) := by decide
  obtain ⟨-, hu2, -, hs2, hne⟩ := ingest_twice_no_upload_row (fun _ => some []) DBState.empty
    [] "f.xlsx" "9811000" "" none ⟨2025, 8, 8, 10, 0, 0, 0⟩ _ _ _ _ rfl h1 h2
  exact ⟨rfl, h1, h2, hu2, by rw [← hs2] at hne ⊢; exact hne⟩


/-- C2 counterexample: a location row whose validator warns (latitude 91 is out
of range) is NOT inserted — processLocationFromShipInfo returns count 0 and
leaves the database untouched, contradicting the claim that such rows are
still inserted with the warnings surfaced alongside. -/
theorem location_row_insert_on_warning_counterexample :
    locationWarnings ["Latitude"] ["91"] (NewHeaderMapper ["Latitude"]) ≠ [] ∧
    processLocationFromShipInfo ["Latitude"] ["91"] 7 ⟨2025, 8, 8, 10, 0, 0, 0⟩
        (NewHeaderMapper ["Latitude"]) DBState.empty
      = (0, ["location data: latitude out of range (-90 to 90)"], DBState.empty) :=
  ⟨by with_unfolding_all decide, by with_unfolding_all decide⟩

/-- C2 (amended): whenever the location validator produces a non-empty warning
list for a row of the ship-info sheet, processLocationFromShipInfo skips the
row: it returns an inserted-count of 0, leaves the database unchanged, and
surfaces the joined warnings — the same skip-on-warning behaviour as the
engine, fuel and generator processors. -/
theorem location_row_skipped_on_warning (headers data : List String) (vesselID : Int)
    (defaultTS : Timestamp) (mapper : List (String × String)) (db : DBState)
    (hw : locationWarnings headers data mapper ≠ []) :
    (processLocationFromShipInfo headers data vesselID defaultTS mapper db).1 = 0 ∧
    (processLocationFromShipInfo headers data vesselID defaultTS mapper db).2.2 = db ∧
    (processLocationFromShipInfo headers data vesselID defaultTS mapper db).2.1
      = ["location data: " ++ joinSep ", " (locationWarnings headers data mapper)] := by
  rcases hp : locationParsed headers data mapper with ⟨la, lo, co, sp, st⟩
  rw [locationWarnings, hp] at hw
  rw [locationWarnings, hp]
  simp only [processLocationFromShipInfo, hp]
  simp [hw]

theorem location_row_skipped_witness :
    locationWarnings ["Latitude"] ["91"] (NewHeaderMapper ["Latitude"]) ≠ [] ∧
    (processLocationFromShipInfo ["Latitude"] ["91"] 7 ⟨2025, 8, 8, 10, 0, 0, 0⟩
        (NewHeaderMapper ["Latitude"]) DBState.empty).1 = 0 ∧
    (processLocationFromShipInfo ["Latitude"] ["91"] 7 ⟨2025, 8, 8, 10, 0, 0, 0⟩
        (NewHeaderMapper ["Latitude"]) DBState.empty).2.2 = DBState.empty :=
  ⟨by with_unfolding_all decide,
   (location_row_skipped_on_warning ["Latitude"] ["91"] 7 ⟨2025, 8, 8, 10, 0, 0, 0⟩
      (NewHeaderMapper ["Latitude"]) DBState.empty (by with_unfolding_all decide)).1,
   (location_row_skipped_on_warning ["Latitude"] ["91"] 7 ⟨2025, 8, 8, 10, 0, 0, 0⟩
      (NewHeaderMapper ["Latitude"]) DBState.empty (by with_unfolding_all decide)).2.1⟩

theorem processLocationFromShipInfo_vessels (headers data : List String) (vesselID : Int)
    (defaultTS : Timestamp) (mapper : List (String × String)) (db : DBState) :
    (processLocationFromShipInfo headers data vesselID defaultTS mapper db).2.2.vessels
      = db.vessels := by
  rcases hp : locationParsed headers data mapper with ⟨la, lo, co, sp, st⟩
  simp only [processLocationFromShipInfo, hp]
  split_ifs <;> simp [insertIgnoreLocation] <;> split <;> rfl

/-- C5: when a non-empty IMO parameter is supplied, resolveShipInfoIMO returns
the provided IMO no matter what IMO value the ship-info sheet holds, and the
vessel that processShipInfo resolves carries the provided IMO, not the
sheet's. -/
theorem provided_imo_overrides_sheet (f : Workbook) (providedIMO vesselName : String)
    (uploadedAt : Timestamp) (db : DBState) (vid : Int) (cnt : Nat) (ws : List String)
    (db' : DBState) (himo : providedIMO ≠ "")
    (h : processShipInfo f providedIMO vesselName uploadedAt db = some (vid, cnt, ws, db')) :
    (∀ headers data mapper,
      resolveShipInfoIMO providedIMO headers data mapper = some providedIMO) ∧
    ∃ v, v ∈ db'.vessels ∧ v.id = vid ∧ v.imo = some providedIMO := by
  refine ⟨fun headers data mapper => by rw [resolveShipInfoIMO, if_pos himo], ?_⟩
  have hparams : ∀ (dbx : DBState) (vidx : Int) (cntx : Nat) (wsx : List String)
      (dbx' : DBState),
      vesselFromParams providedIMO vesselName dbx = some (vidx, cntx, wsx, dbx') →
      ∃ v, v ∈ dbx'.vessels ∧ v.id = vidx ∧ v.imo = some providedIMO := by
    intro dbx vidx cntx wsx dbx' hp
    rw [vesselFromParams, if_pos himo] at hp
    simp only [Option.some.injEq, Prod.mk.injEq] at hp
    obtain ⟨h1, -, -, h4⟩ := hp
    rw [← h4]
    exact ⟨_, List.mem_append_right _ (List.mem_singleton.mpr rfl), by rw [← h1]; rfl, rfl⟩
  rw [processShipInfo] at h
  rcases hfind : f.find? (fun s =>
      containsStr (toLowerStr s.1) "ship" && containsStr (toLowerStr s.1) "info") with _ | sheet
  · simp only [hfind] at h
    exact hparams _ _ _ _ _ h
  · simp only [hfind] at h
    rcases hrows : sheet.2 with _ | ⟨headers, _ | ⟨data, rest⟩⟩
    · simp only [hrows] at h
      exact hparams _ _ _ _ _ h
    · simp only [hrows] at h
      exact hparams _ _ _ _ _ h
    · simp only [hrows, resolveShipInfoIMO, if_pos himo] at h
      rcases hex : db.vessels.find? (fun v => v.imo == some providedIMO) with _ | v
      · simp only [hex] at h
        split at h
        · exact absurd h (by simp)
        · simp only [Option.some.injEq, Prod.mk.injEq] at h
          obtain ⟨h1, -, -, h4⟩ := h
          rw [← h4, processLocationFromShipInfo_vessels]
          exact ⟨_, List.mem_append_right _ (List.mem_singleton.mpr rfl), by rw [← h1]; rfl, rfl⟩
      · simp only [hex] at h
        have hvmem := List.mem_of_find?_eq_some hex
        have hvimo : v.imo = some providedIMO := by
          have := List.find?_some hex
          simpa using this
        split at h
        · exact absurd h (by simp)
        · simp only [Option.some.injEq, Prod.mk.injEq] at h
          obtain ⟨h1, -, -, h4⟩ := h
          rw [← h4, processLocationFromShipInfo_vessels]
          refine ⟨_, List.mem_map.mpr ⟨v, hvmem, rfl⟩, ?_, ?_⟩
          · simp only [beq_self_eq_true, if_true]
            rw [← h1]
          · simp only [beq_self_eq_true, if_true, hvimo]

/-- C6: for every fuel sheet row that yields a reading, the stored level
percent equals currentLiters / capacityLiters * 100 exactly when both the
current volume and the capacity parsed and the capacity is positive;
otherwise the level percent field is left unset. -/
theorem fuel_level_percent_derived (tsCol tankNoCol capCol curCol tempCol : Option String)
    (vesselID : Int) (defaultTS : Timestamp) (rowIdx : Nat) (headers cells : List String)
    (r : FuelReading)
    (h : (processFuelRow tsCol tankNoCol capCol curCol tempCol vesselID defaultTS rowIdx
        headers cells).1 = some r) :
    r.levelPercent =
      (match fuelCurLiters curCol capCol (buildRow headers cells),
             fuelCapLiters capCol (buildRow headers cells) with
       | some cu, some ca => if ca > 0 then some (cu / ca * 100) else none
       | _, _ => none) := by
  simp only [processFuelRow] at h
  split at h
  · simp at h
  · injection h with h'
    subst h'
    rfl

theorem fuel_level_percent_derived_witness :
    (processFuelRow none none (some "Capacity") (some "Current") none 1
        ⟨2025, 8, 8, 10, 0, 0, 0⟩ 1 ["Capacity", "Current"] ["200", "50"]).1.isSome = true ∧
    ((processFuelRow none none (some "Capacity") (some "Current") none 1
        ⟨2025, 8, 8, 10, 0, 0, 0⟩ 1 ["Capacity", "Current"] ["200", "50"]).1.map
      FuelReading.levelPercent) = some (some 25) := by
  have hs : (processFuelRow none none (some "Capacity") (some "Current") none 1
      ⟨2025, 8, 8, 10, 0, 0, 0⟩ 1 ["Capacity", "Current"] ["200", "50"]).1.isSome = true := by
    with_unfolding_all decide
  refine ⟨hs, ?_⟩
  cases hp : (processFuelRow none none (some "Capacity") (some "Current") none 1
      ⟨2025, 8, 8, 10, 0, 0, 0⟩ 1 ["Capacity", "Current"] ["200", "50"]).1 with
  | none => rw [hp] at hs; simp at hs
  | some r =>
    rw [Option.map_some']
    rw [fuel_level_percent_derived none none (some "Capacity") (some "Current") none 1
      ⟨2025, 8, 8, 10, 0, 0, 0⟩ 1 ["Capacity", "Current"] ["200", "50"] r hp]
    with_unfolding_all decide

theorem isPrefixList_map (f : Char → Char) (pat l : List Char)
    (h : isPrefixList pat l = true) : isPrefixList (pat.map f) (l.map f) = true := by
  induction pat generalizing l with
  | nil => simp [isPrefixList]
  | cons a as ih =>
    cases l with
    | nil => simp [isPrefixList] at h
    | cons b bs =>
      simp only [isPrefixList, Bool.and_eq_true, decide_eq_true_eq] at h
      simp only [List.map_cons, isPrefixList, Bool.and_eq_true, decide_eq_true_eq]
      exact ⟨by rw [h.1], ih bs h.2⟩

theorem isInfixList_map (f : Char → Char) (pat l : List Char)
    (h : isInfixList pat l = true) : isInfixList (pat.map f) (l.map f) = true := by
  induction l with
  | nil =>
    cases pat <;> simp_all [isInfixList]
  | cons b bs ih =>
    rw [isInfixList] at h
    simp only [Bool.or_eq_true] at h
    rcases h with h | h
    · rw [List.map_cons, isInfixList]
      simp only [Bool.or_eq_true]
      exact Or.inl (isPrefixList_map f _ _ h)
    · rw [List.map_cons, isInfixList]
      simp only [Bool.or_eq_true]
      exact Or.inr (ih h)

/-- C7: a fuel capacity or current-volume column whose header contains "m3"
(case-insensitively, via the lower-cased infix test of isM3Header) has its
parsed value multiplied by 1000 before storage. -/
theorem fuel_m3_times_1000 (c : String) (row : List (String × String)) (v : ℚ)
    (hm3 : containsStr c "m3" = true)
    (hv : ParseFloat (rowGet row c) = some v) :
    isM3Header c = true ∧
    fuelCapLiters (some c) row = some (v * 1000) ∧
    (∀ capCol, fuelCurLiters (some c) capCol row = some (v * 1000)) ∧
    fuelCurLiters none (some c) row = some (v * 1000) := by
  have hm : isM3Header c = true := by
    rw [isM3Header]
    simp only [Bool.or_eq_true]
    right
    rw [containsStr] at hm3 ⊢
    have hmap := isInfixList_map charLower _ _ hm3
    rw [show List.map charLower ("m3" : String).data = ("m3" : String).data from by decide]
      at hmap
    exact hmap
  refine ⟨hm, ?_, fun capCol => ?_, ?_⟩ <;> simp [fuelCapLiters, fuelCurLiters, hv, hm]

theorem fuel_m3_times_1000_witness :
    containsStr "Capacity(m3)" "m3" = true ∧
    ParseFloat (rowGet [("Capacity(m3)", "10")] "Capacity(m3)") = some 10 ∧
    fuelCapLiters (some "Capacity(m3)") [("Capacity(m3)", "10")] = some (10 * 1000) ∧
    fuelCurLiters none (some "Capacity(m3)") [("Capacity(m3)", "10")] = some (10 * 1000) ∧
    ((10 : ℚ) * 1000 = 10000) :=
  ⟨by decide, by with_unfolding_all decide,
   (fuel_m3_times_1000 "Capacity(m3)" [("Capacity(m3)", "10")] 10 (by decide)
      (by with_unfolding_all decide)).2.1,
   (fuel_m3_times_1000 "Capacity(m3)" [("Capacity(m3)", "10")] 10 (by decide)
      (by with_unfolding_all decide)).2.2.2,
   by norm_num⟩

theorem provided_imo_overrides_sheet_witness :
    ("2222222" : String) ≠ "" ∧
    processShipInfo [("Ship Info", [["IMO"], ["1111111"]])] "2222222" ""
        ⟨2025, 8, 8, 10, 0, 0, 0⟩ DBState.empty
      = some (1, 0, [],
          ⟨[⟨1, some "2222222", some "Vessel-2222222", none, none⟩],
            [], [], [], [], [], [], [], []⟩) ∧
    (∃ v, v ∈ (⟨[⟨1, some "2222222", some "Vessel-2222222", none, none⟩],
        [], [], [], [], [], [], [], []⟩ : DBState).vessels ∧
      v.id = 1 ∧ v.imo = some "2222222") :=
  ⟨by decide, by with_unfolding_all decide,
   (provided_imo_overrides_sheet [("Ship Info", [["IMO"], ["1111111"]])] "2222222" ""
      ⟨2025, 8, 8, 10, 0, 0, 0⟩ DBState.empty 1 0 []
      ⟨[⟨1, some "2222222", some "Vessel-2222222", none, none⟩], [], [], [], [], [], [], [], []⟩
      (by decide) (by with_unfolding_all decide)).2⟩


end ShipTelemetry
